import Mathlib

/-!
Verification of the Ricart-Agrawala distributed mutual-exclusion engine
(src/src/App.js).  The engine's data model and operations are embedded
shallowly: React state triples (nodes, messages, logicalClock) become an
explicit `SystemState`, and each engine function becomes a state
transformer.  Real-time artifacts (message ids from Date.now, random
delivery delays, the setTimeout pacing of replies) are replaced by
positional message identity and a nondeterministic delivery action, which
captures exactly the "any interleaving of deliveries" semantics the spec
demands.
-/

set_option linter.unusedVariables false

namespace RicartAgrawala

/-- Message types (source: `MessageType`). -/
inductive MessageType where
  | REQUEST
  | REPLY
deriving DecidableEq, Repr

/-- Node states (source: `NodeState`). -/
inductive NodeState where
  | RELEASED
  | WANTED
  | HELD
deriving DecidableEq, Repr

/-- A node, mirroring the JS node object created in `initializeNodes`.
The cosmetic `name` string and the `requestQueue` field (initialized to []
and never read or written anywhere else in the source) are omitted. -/
structure Node where
  id : Nat
  state : NodeState
  timestamp : Nat
  pendingReplies : Finset Nat
  deferredReplies : List Nat
  logicalClock : Nat
  inCriticalSection : Bool
  criticalSectionTimer : Nat
deriving DecidableEq

instance : Inhabited Node :=
  ⟨{ id := 0, state := NodeState.RELEASED, timestamp := 0,
     pendingReplies := ∅, deferredReplies := [], logicalClock := 0,
     inCriticalSection := false, criticalSectionTimer := 0 }⟩

/-- A message (source: object built in `sendMessage`).  `from`/`to` are
renamed `fromId`/`toId` because `from` is a Lean keyword.  The real-time
`id` and `deliveryTime` fields are dropped: a message is identified by its
position in the message list, and its random delivery time is modeled by
letting the delivery action pick any undelivered message. -/
structure Message where
  fromId : Nat
  toId : Nat
  type : MessageType
  timestamp : Nat
  delivered : Bool
deriving DecidableEq, Repr

/-- The engine's state: the three React state cells `nodes`, `messages`,
`logicalClock`. -/
structure SystemState where
  nodes : List Node
  messages : List Message
  logicalClock : Nat
deriving DecidableEq

/-- Lamport clock update (source: `updateLogicalClock`).  The source both
stores `max(prev, receivedTimestamp) + 1` into the clock state and returns
`max(logicalClock, receivedTimestamp) + 1` to its caller; reading the
current clock sequentially, the first component is the stored value and
the second the returned one. -/
def updateLogicalClock (clock : Nat) (receivedTimestamp : Nat) : Nat × Nat :=
  (Nat.max clock receivedTimestamp + 1, Nat.max clock receivedTimestamp + 1)

/-- Source: `sendMessage`.  Appends an undelivered message to the message
collection. -/
def sendMessage (s : SystemState) (fromId toId : Nat) (type : MessageType)
    (timestamp : Nat) : SystemState :=
  { s with messages := s.messages ++
      [{ fromId := fromId, toId := toId, type := type,
         timestamp := timestamp, delivered := false }] }

/-- Source: `initializeNodes`.  Unconditionally replaces the node
collection with `count` fresh RELEASED nodes, clears all messages and
resets the global clock; the prior state `s` is discarded (the source has
no validation of `count`). -/
def initializeNodes (count : Nat) (s : SystemState) : SystemState :=
  { nodes := (List.range count).map (fun i =>
      { id := i, state := NodeState.RELEASED, timestamp := 0,
        pendingReplies := ∅, deferredReplies := [], logicalClock := 0,
        inCriticalSection := false, criticalSectionTimer := 0 }),
    messages := [], logicalClock := 0 }

/-- Source: `requestCriticalSection`. -/
def requestCriticalSection (s : SystemState) (nodeId : Nat) : SystemState :=
  match s.nodes[nodeId]? with
  | none => s
  | some node =>
    if node.state ≠ NodeState.RELEASED then s
    else
      let newTimestamp := (updateLogicalClock s.logicalClock 0).2
      let node' := { node with
        state := NodeState.WANTED,
        timestamp := newTimestamp,
        logicalClock := newTimestamp,
        pendingReplies := (Finset.range s.nodes.length).erase nodeId }
      let s' := { s with
        nodes := s.nodes.set nodeId node',
        logicalClock := (updateLogicalClock s.logicalClock 0).1 }
      ((List.range s.nodes.length).filter (fun i => decide (i ≠ nodeId))).foldl
        (fun acc i => sendMessage acc nodeId i MessageType.REQUEST newTimestamp) s'

/-- The immediate-reply decision of `processMessage` for a REQUEST,
verbatim from the source's `shouldReply` expression. -/
def shouldReply (receiver : Node) (m : Message) : Prop :=
  receiver.state = NodeState.RELEASED ∨
    (receiver.state = NodeState.WANTED ∧
      (m.timestamp < receiver.timestamp ∨
        (m.timestamp = receiver.timestamp ∧ m.fromId < receiver.id)))

instance (receiver : Node) (m : Message) : Decidable (shouldReply receiver m) := by
  unfold shouldReply; infer_instance

/-- Source: `processMessage`.  The receiver merges the message timestamp
into its local clock, then branches on the message type. -/
def processMessage (s : SystemState) (m : Message) : SystemState :=
  match s.nodes[m.toId]? with
  | none => s
  | some receiver0 =>
    let receiver := { receiver0 with
      logicalClock := Nat.max receiver0.logicalClock m.timestamp + 1 }
    match m.type with
    | MessageType.REQUEST =>
      if shouldReply receiver m then
        sendMessage ({ s with nodes := s.nodes.set m.toId receiver })
          m.toId m.fromId MessageType.REPLY receiver.logicalClock
      else
        let receiver' := { receiver with
          deferredReplies := receiver.deferredReplies ++ [m.fromId] }
        { s with nodes := s.nodes.set m.toId receiver' }
    | MessageType.REPLY =>
      let receiver1 := { receiver with
        pendingReplies := receiver.pendingReplies.erase m.fromId }
      if receiver1.state = NodeState.WANTED ∧ receiver1.pendingReplies.card = 0 then
        let receiver2 := { receiver1 with
          state := NodeState.HELD, inCriticalSection := true,
          criticalSectionTimer := 3 }
        { s with nodes := s.nodes.set m.toId receiver2 }
      else
        { s with nodes := s.nodes.set m.toId receiver1 }

/-- Source: `deliverMessage`.  Delivery of the message at position `k`:
a no-op when the message does not exist or was already delivered,
otherwise the message is processed and then marked delivered. -/
def deliverMessage (s : SystemState) (k : Nat) : SystemState :=
  match s.messages[k]? with
  | none => s
  | some m =>
    if m.delivered then s
    else
      let s' := processMessage s m
      { s' with messages := s'.messages.set k { m with delivered := true } }

/-- Source: `releaseCriticalSection`. -/
def releaseCriticalSection (s : SystemState) (nodeId : Nat) : SystemState :=
  match s.nodes[nodeId]? with
  | none => s
  | some node =>
    if node.state ≠ NodeState.HELD then s
    else
      let node' := { node with
        state := NodeState.RELEASED, inCriticalSection := false,
        criticalSectionTimer := 0, deferredReplies := [] }
      let s' := { s with nodes := s.nodes.set nodeId node' }
      node.deferredReplies.foldl
        (fun acc d => sendMessage acc nodeId d MessageType.REPLY node.logicalClock) s'

/-- One engine step: a request, a delivery of one (possibly already
delivered) message, or a release.  These are exactly the operations the
spec's interleaving quantifies over; the driver's tick only invokes
releases (timer hitting 0) and requests (random issuance). -/
inductive Step : SystemState → SystemState → Prop where
  | request (s : SystemState) (i : Nat) : Step s (requestCriticalSection s i)
  | deliver (s : SystemState) (k : Nat) : Step s (deliverMessage s k)
  | release (s : SystemState) (i : Nat) : Step s (releaseCriticalSection s i)

/-- States reachable from an `initializeNodes n` reset by any interleaving
of requests, deliveries and releases. -/
inductive Reachable (n : Nat) : SystemState → Prop where
  | init (s0 : SystemState) : Reachable n (initializeNodes n s0)
  | step (s s' : SystemState) (h : Reachable n s) (hs : Step s s') : Reachable n s'

/-! ### Observation helpers -/

/-- The node at index `k` (the default node when out of range). -/
def nd (s : SystemState) (k : Nat) : Node := s.nodes.getD k default

/-- Current request timestamp of node `k`. -/
def tsOf (s : SystemState) (k : Nat) : Nat := (nd s k).timestamp

/-- Node `k` is WANTED or HELD (not RELEASED). -/
def activeAt (s : SystemState) (k : Nat) : Prop :=
  (nd s k).state ≠ NodeState.RELEASED

instance (s : SystemState) (k : Nat) : Decidable (activeAt s k) := by
  unfold activeAt; infer_instance

/-- An in-flight (undelivered) message of type `ty` from `i` to `j`. -/
def isInflight (ty : MessageType) (i j : Nat) (m : Message) : Bool :=
  !m.delivered && decide (m.type = ty) && decide (m.fromId = i) && decide (m.toId = j)

/-- Number of in-flight REQUEST messages from `i` to `j`. -/
def reqC (s : SystemState) (i j : Nat) : Nat :=
  s.messages.countP (isInflight MessageType.REQUEST i j)

/-- Number of in-flight REPLY messages from `i` to `j`. -/
def repC (s : SystemState) (i j : Nat) : Nat :=
  s.messages.countP (isInflight MessageType.REPLY i j)

/-- Number of occurrences of `j` in node `i`'s deferredReplies. -/
def defC (s : SystemState) (i j : Nat) : Nat :=
  (nd s i).deferredReplies.count j

/-- 1 when `j` is in node `i`'s pendingReplies, else 0. -/
def pendC (s : SystemState) (i j : Nat) : Nat :=
  if j ∈ (nd s i).pendingReplies then 1 else 0

/-- Strict lexicographic order on (timestamp, node id) tickets: the order
that the request/reply decision rule implements. -/
def tlt (t1 i1 t2 i2 : Nat) : Prop := t1 < t2 ∨ (t1 = t2 ∧ i1 < i2)

instance (t1 i1 t2 i2 : Nat) : Decidable (tlt t1 i1 t2 i2) := by
  unfold tlt; infer_instance

/-- The message a request emits. -/
def reqMsg (i j ts : Nat) : Message :=
  { fromId := i, toId := j, type := MessageType.REQUEST, timestamp := ts,
    delivered := false }

/-- The message a reply (immediate or flushed) emits. -/
def repMsg (i j ts : Nat) : Message :=
  { fromId := i, toId := j, type := MessageType.REPLY, timestamp := ts,
    delivered := false }

/-- The receiver after the Lamport merge at the top of `processMessage`. -/
def mergedReceiver (s : SystemState) (m : Message) : Node :=
  { nd s m.toId with
    logicalClock := Nat.max (nd s m.toId).logicalClock m.timestamp + 1 }

/-- The receiver after a REPLY is absorbed: the sender is erased from the
pending set, and the node enters HELD when it was WANTED and the pending
set has emptied. -/
def afterReply (s : SystemState) (m : Message) : Node :=
  let r1 := { mergedReceiver s m with
    pendingReplies := (nd s m.toId).pendingReplies.erase m.fromId }
  if r1.state = NodeState.WANTED ∧ r1.pendingReplies.card = 0 then
    ({ r1 with
      state := NodeState.HELD, inCriticalSection := true,
      criticalSectionTimer := 3 })
  else r1

/-! ### A concrete two-node execution used as witness material.

From a fresh two-node system: node 0 requests (timestamp 1); its REQUEST
is delivered to node 1, which is RELEASED and immediately replies; the
REPLY is delivered to node 0, which enters HELD; node 0 releases; node 0
requests again. -/

def demoState0 : SystemState :=
  initializeNodes 2 { nodes := [], messages := [], logicalClock := 0 }

def demoState1 : SystemState := requestCriticalSection demoState0 0

def demoState2 : SystemState := deliverMessage demoState1 0

def demoState3 : SystemState := deliverMessage demoState2 1

def demoState4 : SystemState := releaseCriticalSection demoState3 0

def demoState5 : SystemState := requestCriticalSection demoState4 0

def c5Node0 : Node :=
  { id := 0, state := NodeState.HELD, timestamp := 7,
    pendingReplies := ∅, deferredReplies := [1], logicalClock := 9,
    inCriticalSection := true, criticalSectionTimer := 2 }

def c5Node1 : Node :=
  { id := 1, state := NodeState.WANTED, timestamp := 8,
    pendingReplies := {0}, deferredReplies := [], logicalClock := 8,
    inCriticalSection := false, criticalSectionTimer := 0 }

def c5State : SystemState :=
  { nodes := [c5Node0, c5Node1], messages := [], logicalClock := 8 }


/-- The node record produced for the requester by a successful
`requestCriticalSection`. -/
def reqNode (s : SystemState) (i : Nat) : Node :=
  { nd s i with
    state := NodeState.WANTED, timestamp := s.logicalClock + 1,
    logicalClock := s.logicalClock + 1,
    pendingReplies := (Finset.range s.nodes.length).erase i }

/-- The node record produced for the releaser by a successful
`releaseCriticalSection`. -/
def relNode (s : SystemState) (i : Nat) : Node :=
  { nd s i with
    state := NodeState.RELEASED, inCriticalSection := false,
    criticalSectionTimer := 0, deferredReplies := [] }

/-- The receiver record produced when a REQUEST is deferred. -/
def deferNode (s : SystemState) (m : Message) : Node :=
  { mergedReceiver s m with
    deferredReplies := (nd s m.toId).deferredReplies ++ [m.fromId] }

/-! ### The inductive invariant behind mutual exclusion.

For each ordered pair of distinct nodes (i, j), the protocol conserves a
"permission token" for i's current request at j: the token is either the
in-flight REQUEST from i to j, or the entry i in j's deferredReplies, or
the in-flight REPLY from j to i — and it exists exactly when j is still
in i's pendingReplies.  On top of this conservation law sit the ticket
priority facts: request timestamps are drawn from the strictly increasing
global clock, an active node that already holds another active node's
permission has the strictly older (timestamp, id) ticket, and an
in-flight REPLY from an active sender witnesses that its addressee's
ticket is strictly older than the sender's. -/
structure Inv (n : Nat) (s : SystemState) : Prop where
  len : s.nodes.length = n
  ids : ∀ k, k < n → (nd s k).id = k
  mwf : ∀ m ∈ s.messages, m.fromId < n ∧ m.toId < n ∧ m.fromId ≠ m.toId
  dwf : ∀ k, k < n → ∀ d ∈ (nd s k).deferredReplies, d < n ∧ d ≠ k
  pempty : ∀ k, k < n → (nd s k).state ≠ NodeState.WANTED →
    (nd s k).pendingReplies = ∅
  conserve : ∀ i j, i < n → j < n → i ≠ j →
    reqC s i j + defC s j i + repC s j i = pendC s i j
  reqts : ∀ m ∈ s.messages, m.delivered = false →
    m.type = MessageType.REQUEST → m.timestamp = tsOf s m.fromId
  tsbound : ∀ k, k < n → tsOf s k ≤ s.logicalClock
  prio : ∀ i j, i < n → j < n → i ≠ j → activeAt s i → activeAt s j →
    j ∉ (nd s i).pendingReplies → tlt (tsOf s i) i (tsOf s j) j
  repprio : ∀ i j, i < n → j < n → i ≠ j → 1 ≤ repC s j i → activeAt s j →
    tlt (tsOf s i) i (tsOf s j) j

/-! ### Basic lemmas about the helpers -/

theorem tlt_asymm (t1 i1 t2 i2 : Nat) (h1 : tlt t1 i1 t2 i2) (h2 : tlt t2 i2 t1 i1) :
    False := by
  rcases h1 with h1 | ⟨h1, h1'⟩ <;> rcases h2 with h2 | ⟨h2, h2'⟩ <;> omega

theorem tlt_total (t1 i1 t2 i2 : Nat) (hne : i1 ≠ i2) :
    tlt t1 i1 t2 i2 ∨ tlt t2 i2 t1 i1 := by
  unfold tlt; omega

theorem nd_set_self (l : List Node) (msgs : List Message) (c k : Nat) (a : Node)
    (h : k < l.length) :
    nd { nodes := l.set k a, messages := msgs, logicalClock := c } k = a := by
  simp [nd, List.getD_eq_getElem?_getD, List.getElem?_set_self h]

theorem nd_set_ne (l : List Node) (msgs : List Message) (c : Nat) (k j : Nat)
    (a : Node) (h : k ≠ j) :
    nd { nodes := l.set k a, messages := msgs, logicalClock := c } j =
      l.getD j default := by
  simp [nd, List.getD_eq_getElem?_getD, List.getElem?_set_ne h]

theorem nd_getD (s : SystemState) (j : Nat) :
    s.nodes.getD j default = nd s j := rfl

/-- `countP` across a point update of a list. -/
theorem countP_set_add (p : Message → Bool) (l : List Message) (k : Nat) (a b : Message)
    (h : l[k]? = some b) :
    (l.set k a).countP p + (if p b then 1 else 0) =
      l.countP p + (if p a then 1 else 0) := by
  induction l generalizing k with
  | nil => simp at h
  | cons x xs ih =>
    cases k with
    | zero =>
      simp only [List.getElem?_cons_zero, Option.some.injEq] at h
      subst h
      simp [List.countP_cons]
      omega
    | succ k' =>
      simp only [List.getElem?_cons_succ] at h
      simp only [List.set_cons_succ, List.countP_cons]
      have := ih k' h
      omega

/-- Folding `sendMessage` over a list of targets appends the corresponding
batch of messages. -/
theorem foldl_sendMessage (l : List Nat) (s : SystemState) (f : Nat)
    (ty : MessageType) (ts : Nat) :
    l.foldl (fun acc i => sendMessage acc f i ty ts) s =
      { s with messages := s.messages ++ l.map (fun i =>
          { fromId := f, toId := i, type := ty, timestamp := ts,
            delivered := false }) } := by
  induction l generalizing s with
  | nil => simp
  | cons x xs ih =>
    simp only [List.foldl_cons, List.map_cons]
    rw [ih]
    simp [sendMessage]

/-! ### Closed forms of the operations -/

/-- Closed form of `requestCriticalSection` on a RELEASED node. -/
theorem requestCS_spec (s : SystemState) (i : Nat) (h : i < s.nodes.length)
    (hrel : (nd s i).state = NodeState.RELEASED) :
    requestCriticalSection s i =
      { nodes := s.nodes.set i ({ nd s i with
          state := NodeState.WANTED,
          timestamp := s.logicalClock + 1,
          logicalClock := s.logicalClock + 1,
          pendingReplies := (Finset.range s.nodes.length).erase i }),
        messages := s.messages ++
          ((List.range s.nodes.length).filter (fun j => decide (j ≠ i))).map
            (fun j => reqMsg i j (s.logicalClock + 1)),
        logicalClock := s.logicalClock + 1 } := by
  have hget : s.nodes[i]? = some (nd s i) := by
    simp [nd, List.getD_eq_getElem?_getD, List.getElem?_eq_getElem h]
  unfold requestCriticalSection
  rw [hget]
  simp only [hrel, updateLogicalClock, Nat.max_zero, ne_eq, not_true_eq_false,
    if_false, ite_false, reduceIte]
  rw [foldl_sendMessage]
  rfl

/-- Closed form of `requestCriticalSection` on a non-RELEASED node: no-op. -/
theorem requestCS_noop (s : SystemState) (i : Nat) (h : i < s.nodes.length)
    (hrel : (nd s i).state ≠ NodeState.RELEASED) :
    requestCriticalSection s i = s := by
  have hget : s.nodes[i]? = some (nd s i) := by
    simp [nd, List.getD_eq_getElem?_getD, List.getElem?_eq_getElem h]
  unfold requestCriticalSection
  rw [hget]
  simp [hrel]

/-- Closed form of `releaseCriticalSection` on a HELD node. -/
theorem releaseCS_spec (s : SystemState) (i : Nat) (h : i < s.nodes.length)
    (hheld : (nd s i).state = NodeState.HELD) :
    releaseCriticalSection s i =
      { nodes := s.nodes.set i ({ nd s i with
          state := NodeState.RELEASED, inCriticalSection := false,
          criticalSectionTimer := 0, deferredReplies := [] }),
        messages := s.messages ++ (nd s i).deferredReplies.map
          (fun d => repMsg i d (nd s i).logicalClock),
        logicalClock := s.logicalClock } := by
  have hget : s.nodes[i]? = some (nd s i) := by
    simp [nd, List.getD_eq_getElem?_getD, List.getElem?_eq_getElem h]
  unfold releaseCriticalSection
  rw [hget]
  simp only [hheld, ne_eq, not_true_eq_false, if_false, ite_false, reduceIte]
  rw [foldl_sendMessage]
  rfl

/-- Closed form of `processMessage` on a REQUEST when the decision rule
grants an immediate reply. -/
theorem processMessage_request_reply (s : SystemState) (m : Message)
    (h : m.toId < s.nodes.length) (ht : m.type = MessageType.REQUEST)
    (hsr : shouldReply (mergedReceiver s m) m) :
    processMessage s m =
      { nodes := s.nodes.set m.toId (mergedReceiver s m),
        messages := s.messages ++
          [repMsg m.toId m.fromId (mergedReceiver s m).logicalClock],
        logicalClock := s.logicalClock } := by
  have hget : s.nodes[m.toId]? = some (nd s m.toId) := by
    simp [nd, List.getD_eq_getElem?_getD, List.getElem?_eq_getElem h]
  unfold processMessage
  rw [hget, ht]
  simp only [mergedReceiver] at hsr
  simp [hsr, sendMessage, mergedReceiver, repMsg]

/-- Closed form of `processMessage` on a REQUEST when the decision rule
defers the reply. -/
theorem processMessage_request_defer (s : SystemState) (m : Message)
    (h : m.toId < s.nodes.length) (ht : m.type = MessageType.REQUEST)
    (hsr : ¬ shouldReply (mergedReceiver s m) m) :
    processMessage s m =
      { nodes := s.nodes.set m.toId
          { mergedReceiver s m with
            deferredReplies := (nd s m.toId).deferredReplies ++ [m.fromId] },
        messages := s.messages,
        logicalClock := s.logicalClock } := by
  have hget : s.nodes[m.toId]? = some (nd s m.toId) := by
    simp [nd, List.getD_eq_getElem?_getD, List.getElem?_eq_getElem h]
  unfold processMessage
  rw [hget, ht]
  simp only [mergedReceiver] at hsr
  simp [hsr, mergedReceiver]

/-- Closed form of `processMessage` on a REPLY. -/
theorem processMessage_reply (s : SystemState) (m : Message)
    (h : m.toId < s.nodes.length) (ht : m.type = MessageType.REPLY) :
    processMessage s m =
      { nodes := s.nodes.set m.toId (afterReply s m),
        messages := s.messages,
        logicalClock := s.logicalClock } := by
  have hget : s.nodes[m.toId]? = some (nd s m.toId) := by
    simp [nd, List.getD_eq_getElem?_getD, List.getElem?_eq_getElem h]
  unfold processMessage
  rw [hget, ht]
  unfold afterReply mergedReceiver
  by_cases hc : (nd s m.toId).state = NodeState.WANTED ∧
      ((nd s m.toId).pendingReplies.erase m.fromId).card = 0
  · simp [hc]
  · simp only []
    rw [if_neg (by simpa using hc), if_neg (by simpa using hc)]

/-- `processMessage` to an out-of-range receiver: no-op. -/
theorem processMessage_none (s : SystemState) (m : Message)
    (h : s.nodes.length ≤ m.toId) :
    processMessage s m = s := by
  have hget : s.nodes[m.toId]? = none := by
    simp [List.getElem?_eq_none h]
  unfold processMessage
  rw [hget]

/-- Closed form of `deliverMessage` at an undelivered message. -/
theorem deliverMessage_spec (s : SystemState) (k : Nat) (m : Message)
    (h : s.messages[k]? = some m) (hnd : m.delivered = false) :
    deliverMessage s k =
      { processMessage s m with
        messages := (processMessage s m).messages.set k
          { m with delivered := true } } := by
  unfold deliverMessage
  rw [h]
  simp [hnd]

/-- Redelivery of an already-delivered message: no-op. -/
theorem deliverMessage_delivered (s : SystemState) (k : Nat) (m : Message)
    (h : s.messages[k]? = some m) (hd : m.delivered = true) :
    deliverMessage s k = s := by
  unfold deliverMessage
  rw [h]
  simp [hd]

/-- Delivery at an out-of-range position: no-op. -/
theorem deliverMessage_none (s : SystemState) (k : Nat)
    (h : s.messages[k]? = none) :
    deliverMessage s k = s := by
  unfold deliverMessage
  rw [h]

/-- Closed form of `releaseCriticalSection` on a non-HELD node: no-op. -/
theorem releaseCS_noop (s : SystemState) (i : Nat) (h : i < s.nodes.length)
    (hheld : (nd s i).state ≠ NodeState.HELD) :
    releaseCriticalSection s i = s := by
  have hget : s.nodes[i]? = some (nd s i) := by
    simp [nd, List.getD_eq_getElem?_getD, List.getElem?_eq_getElem h]
  unfold releaseCriticalSection
  rw [hget]
  simp [hheld]

/-! ### Counting the messages emitted by the operations -/

theorem countP_filter_range_eq (n i b : Nat) :
    ((List.range n).filter (fun j => decide (j ≠ i))).countP
        (fun j => decide (j = b)) =
      if b < n ∧ b ≠ i then 1 else 0 := by
  induction n with
  | zero => simp
  | succ n ih =>
    rw [List.range_succ, List.filter_append, List.countP_append, ih]
    have hsingle : (List.filter (fun j => decide (j ≠ i)) [n]).countP
        (fun j => decide (j = b)) = if n ≠ i ∧ n = b then 1 else 0 := by
      by_cases hni : n = i
      · simp [hni]
      · by_cases hnb : n = b
        · subst hnb; simp [hni]
        · simp [hni, hnb]
    rw [hsingle]
    split_ifs <;> omega

/-- Count of in-flight messages within the REQUEST batch of a request. -/
theorem countP_reqBatch (n i a b ts : Nat) (ty : MessageType) :
    (((List.range n).filter (fun j => decide (j ≠ i))).map
        (fun j => reqMsg i j ts)).countP (isInflight ty a b) =
      if ty = MessageType.REQUEST ∧ a = i ∧ b < n ∧ b ≠ i then 1 else 0 := by
  rw [List.countP_map]
  by_cases hty : ty = MessageType.REQUEST
  · by_cases hai : a = i
    · subst hty; subst hai
      have he : (isInflight MessageType.REQUEST a b ∘ fun j => reqMsg a j ts) =
          fun j => decide (j = b) := by
        funext j
        simp [isInflight, reqMsg]
      rw [he, countP_filter_range_eq]
      simp
    · have he : (isInflight ty a b ∘ fun j => reqMsg i j ts) = fun j => false := by
        funext j
        simp [isInflight, reqMsg]
        intro h1 h2
        exact absurd h2.symm hai
      rw [he]
      simp [hai]
  · have he : (isInflight ty a b ∘ fun j => reqMsg i j ts) = fun j => false := by
      funext j
      simp [isInflight, reqMsg]
      intro h1
      exact absurd h1.symm hty
    rw [he]
    simp [hty]

/-- Count of in-flight messages within the flushed-REPLY batch of a
release. -/
theorem countP_repBatch (l : List Nat) (i a b ts : Nat) (ty : MessageType) :
    (l.map (fun d => repMsg i d ts)).countP (isInflight ty a b) =
      if ty = MessageType.REPLY ∧ a = i then l.count b else 0 := by
  rw [List.countP_map]
  by_cases hty : ty = MessageType.REPLY
  · by_cases hai : a = i
    · subst hty; subst hai
      have he : (isInflight MessageType.REPLY a b ∘ fun d => repMsg a d ts) =
          fun d => d == b := by
        funext d
        simp only [Function.comp_apply, isInflight, repMsg, Bool.not_false,
          Bool.true_and, decide_eq_true_eq]
        by_cases hdb : d = b <;> simp [hdb]
      rw [he]
      simp [List.count]
    · have he : (isInflight ty a b ∘ fun d => repMsg i d ts) = fun d => false := by
        funext d
        simp [isInflight, repMsg]
        intro h1 h2
        exact absurd h2.symm hai
      rw [he]
      simp [hai]
  · have he : (isInflight ty a b ∘ fun d => repMsg i d ts) = fun d => false := by
      funext d
      simp [isInflight, repMsg]
      intro h1
      exact absurd h1.symm hty
    rw [he]
    simp [hty]

/-- Count of in-flight messages within a single immediate REPLY. -/
theorem countP_singleRep (i j ts a b : Nat) (ty : MessageType) :
    ([repMsg i j ts]).countP (isInflight ty a b) =
      if ty = MessageType.REPLY ∧ a = i ∧ b = j then 1 else 0 := by
  have hiff : isInflight ty a b (repMsg i j ts) = true ↔
      (ty = MessageType.REPLY ∧ a = i ∧ b = j) := by
    simp only [isInflight, repMsg, Bool.not_false, Bool.true_and,
      Bool.and_eq_true, decide_eq_true_eq]
    constructor
    · rintro ⟨⟨h1, h2⟩, h3⟩
      exact ⟨h1.symm, h2.symm, h3.symm⟩
    · rintro ⟨h1, h2, h3⟩
      exact ⟨⟨h1.symm, h2.symm⟩, h3.symm⟩
  simp only [List.countP_cons, List.countP_nil, Nat.zero_add]
  split_ifs with h1 h2 h3
  · rfl
  · exact absurd (hiff.1 h1) h2
  · exact absurd (hiff.2 h3) (by simp [h1])
  · rfl

/-! ### Claim theorems -/

/-- C2: a receiver handling a REQUEST replies immediately if and only if
it is RELEASED, or it is WANTED and the incoming ticket
(message timestamp, sender id) is lexicographically smaller than its own
ticket (requestTimestamp, id) — so on equal timestamps the lower id wins;
a HELD receiver always defers.  When the decision is positive
`processMessage` appends exactly one REPLY to the sender and leaves the
deferred queue alone; when negative it appends the sender to the deferred
queue and emits nothing. -/
theorem c2_onRequest_decision (s : SystemState) (m : Message)
    (h : m.toId < s.nodes.length) (ht : m.type = MessageType.REQUEST) :
    ((nd s m.toId).state = NodeState.WANTED →
      (shouldReply (mergedReceiver s m) m ↔
        tlt m.timestamp m.fromId (nd s m.toId).timestamp (nd s m.toId).id)) ∧
    ((nd s m.toId).state = NodeState.RELEASED →
      shouldReply (mergedReceiver s m) m) ∧
    ((nd s m.toId).state = NodeState.HELD →
      ¬ shouldReply (mergedReceiver s m) m) ∧
    (shouldReply (mergedReceiver s m) m →
      (processMessage s m).messages =
        s.messages ++ [repMsg m.toId m.fromId (mergedReceiver s m).logicalClock] ∧
      (nd (processMessage s m) m.toId).deferredReplies =
        (nd s m.toId).deferredReplies) ∧
    (¬ shouldReply (mergedReceiver s m) m →
      (processMessage s m).messages = s.messages ∧
      (nd (processMessage s m) m.toId).deferredReplies =
        (nd s m.toId).deferredReplies ++ [m.fromId]) := by
  refine ⟨?_, ?_, ?_, ?_, ?_⟩
  · intro hw
    unfold shouldReply mergedReceiver tlt
    simp [hw]
  · intro hr
    unfold shouldReply mergedReceiver
    simp [hr]
  · intro hh
    unfold shouldReply mergedReceiver
    simp [hh]
  · intro hsr
    rw [processMessage_request_reply s m h ht hsr]
    refine ⟨rfl, ?_⟩
    rw [nd_set_self _ _ _ _ _ h]
    rfl
  · intro hsr
    rw [processMessage_request_defer s m h ht hsr]
    refine ⟨rfl, ?_⟩
    rw [nd_set_self _ _ _ _ _ h]

/-- Witness for C2 at a concrete input: in `demoState1` node 1 is
RELEASED and must reply to node 0's REQUEST immediately. -/
theorem c2_witness :
    shouldReply
      (mergedReceiver demoState1
        { fromId := 0, toId := 1, type := MessageType.REQUEST,
          timestamp := 1, delivered := false })
      { fromId := 0, toId := 1, type := MessageType.REQUEST,
        timestamp := 1, delivered := false } :=
  (c2_onRequest_decision demoState1 _ (by decide) rfl).2.1 (by decide)

/-- C3: on a REPLY, the receiver erases the sender from its pending set
(a no-op when absent); it transitions to HELD with criticalSectionTimer 3
exactly when it is WANTED and the pending set is empty after the removal,
and otherwise its state and timer are untouched. -/
theorem c3_onReply (s : SystemState) (m : Message)
    (h : m.toId < s.nodes.length) (ht : m.type = MessageType.REPLY) :
    (nd (processMessage s m) m.toId).pendingReplies =
        (nd s m.toId).pendingReplies.erase m.fromId ∧
    (m.fromId ∉ (nd s m.toId).pendingReplies →
      (nd (processMessage s m) m.toId).pendingReplies =
        (nd s m.toId).pendingReplies) ∧
    ((nd s m.toId).state = NodeState.WANTED ∧
        (nd s m.toId).pendingReplies.erase m.fromId = ∅ →
      (nd (processMessage s m) m.toId).state = NodeState.HELD ∧
      (nd (processMessage s m) m.toId).criticalSectionTimer = 3) ∧
    (¬ ((nd s m.toId).state = NodeState.WANTED ∧
        (nd s m.toId).pendingReplies.erase m.fromId = ∅) →
      (nd (processMessage s m) m.toId).state = (nd s m.toId).state ∧
      (nd (processMessage s m) m.toId).criticalSectionTimer =
        (nd s m.toId).criticalSectionTimer) := by
  have hnd := nd_set_self s.nodes s.messages s.logicalClock m.toId (afterReply s m) h
  have hpend : (afterReply s m).pendingReplies =
      (nd s m.toId).pendingReplies.erase m.fromId := by
    unfold afterReply mergedReceiver
    by_cases hc : (nd s m.toId).state = NodeState.WANTED ∧
        ((nd s m.toId).pendingReplies.erase m.fromId).card = 0
    · simp only [hc, and_self, if_true, reduceIte]
    · rw [if_neg (by simpa using hc)]
  have hpos : (nd s m.toId).state = NodeState.WANTED ∧
      (nd s m.toId).pendingReplies.erase m.fromId = ∅ →
      (afterReply s m).state = NodeState.HELD ∧
      (afterReply s m).criticalSectionTimer = 3 := by
    intro hc
    have hc' : (nd s m.toId).state = NodeState.WANTED ∧
        ((nd s m.toId).pendingReplies.erase m.fromId).card = 0 :=
      ⟨hc.1, by rw [hc.2]; exact Finset.card_empty⟩
    unfold afterReply mergedReceiver
    simp only [hc'.1, hc'.2, and_self, if_true, reduceIte]
  have hneg : ¬ ((nd s m.toId).state = NodeState.WANTED ∧
      (nd s m.toId).pendingReplies.erase m.fromId = ∅) →
      (afterReply s m).state = (nd s m.toId).state ∧
      (afterReply s m).criticalSectionTimer =
        (nd s m.toId).criticalSectionTimer := by
    intro hc
    have hc' : ¬ ((nd s m.toId).state = NodeState.WANTED ∧
        ((nd s m.toId).pendingReplies.erase m.fromId).card = 0) := by
      intro hx
      exact hc ⟨hx.1, Finset.card_eq_zero.mp hx.2⟩
    unfold afterReply mergedReceiver
    rw [if_neg (by simpa using hc')]
    exact ⟨rfl, rfl⟩
  rw [processMessage_reply s m h ht, hnd]
  refine ⟨hpend, fun hab => ?_, hpos, hneg⟩
  rw [hpend, Finset.erase_eq_of_not_mem hab]

/-- Witness for C3 at a concrete input: in `demoState2` the REPLY from
node 1 empties node 0's pending set, so node 0 enters HELD with timer 3. -/
theorem c3_witness :
    (nd (processMessage demoState2
      { fromId := 1, toId := 0, type := MessageType.REPLY,
        timestamp := 2, delivered := false }) 0).state = NodeState.HELD ∧
    (nd (processMessage demoState2
      { fromId := 1, toId := 0, type := MessageType.REPLY,
        timestamp := 2, delivered := false }) 0).criticalSectionTimer = 3 :=
  (c3_onReply demoState2 _ (by decide) rfl).2.2.1 (by decide)

/-- C4: a RELEASED node issuing a request becomes WANTED, advances the
global clock by one and takes the advanced value as its request
timestamp, fills pendingReplies with exactly the other node ids, and
emits exactly one REQUEST per other node, all carrying the new
timestamp. -/
theorem c4_requestCS (s : SystemState) (i : Nat) (h : i < s.nodes.length)
    (hrel : (nd s i).state = NodeState.RELEASED) :
    (nd (requestCriticalSection s i) i).state = NodeState.WANTED ∧
    (requestCriticalSection s i).logicalClock = s.logicalClock + 1 ∧
    (nd (requestCriticalSection s i) i).timestamp = s.logicalClock + 1 ∧
    (∀ j, j ∈ (nd (requestCriticalSection s i) i).pendingReplies ↔
      (j < s.nodes.length ∧ j ≠ i)) ∧
    (requestCriticalSection s i).messages = s.messages ++
      ((List.range s.nodes.length).filter (fun j => decide (j ≠ i))).map
        (fun j => reqMsg i j (s.logicalClock + 1)) ∧
    (∀ j, reqC (requestCriticalSection s i) i j =
      reqC s i j + (if j < s.nodes.length ∧ j ≠ i then 1 else 0)) := by
  rw [requestCS_spec s i h hrel]
  refine ⟨?_, rfl, ?_, ?_, rfl, ?_⟩
  · rw [nd_set_self _ _ _ _ _ h]
  · rw [nd_set_self _ _ _ _ _ h]
  · intro j
    rw [nd_set_self _ _ _ _ _ h]
    simp [Finset.mem_erase, Finset.mem_range, and_comm]
  · intro j
    unfold reqC
    simp only [List.countP_append, countP_reqBatch]
    simp

/-- Witness for C4 at a concrete input: node 0 of a fresh two-node
system. -/
theorem c4_witness :
    (nd (requestCriticalSection demoState0 0) 0).state = NodeState.WANTED ∧
    (requestCriticalSection demoState0 0).logicalClock = 1 :=
  ⟨(c4_requestCS demoState0 0 (by decide) (by decide)).1,
   (c4_requestCS demoState0 0 (by decide) (by decide)).2.1⟩

/-- C5 as stated is false on the code: `releaseCriticalSection` does not
clear `timestamp` (the requestTimestamp).  Concretely, releasing a HELD
node whose requestTimestamp is 7 leaves the requestTimestamp at 7, not
cleared to its initial value 0, even though the node transitions to
RELEASED. -/
theorem c5_counterexample :
    (nd (releaseCriticalSection c5State 0) 0).state = NodeState.RELEASED ∧
    (nd c5State 0).timestamp = 7 ∧
    (nd (releaseCriticalSection c5State 0) 0).timestamp = 7 ∧
    (nd (releaseCriticalSection c5State 0) 0).timestamp ≠ 0 := by
  decide

/-- C5 amended: releasing a HELD node with k ids in deferredReplies
transitions it to RELEASED, emits exactly k REPLY messages, one per
deferred id in order, each carrying the node's current clock value,
leaves deferredReplies empty and clears criticalSectionTimer — but the
requestTimestamp is left unchanged, not cleared. -/
theorem c5_release_flush (s : SystemState) (i : Nat) (h : i < s.nodes.length)
    (hheld : (nd s i).state = NodeState.HELD) :
    (nd (releaseCriticalSection s i) i).state = NodeState.RELEASED ∧
    (releaseCriticalSection s i).messages = s.messages ++
      (nd s i).deferredReplies.map (fun d => repMsg i d (nd s i).logicalClock) ∧
    (releaseCriticalSection s i).messages.length =
      s.messages.length + (nd s i).deferredReplies.length ∧
    (∀ d, repC (releaseCriticalSection s i) i d =
      repC s i d + (nd s i).deferredReplies.count d) ∧
    (nd (releaseCriticalSection s i) i).deferredReplies = [] ∧
    (nd (releaseCriticalSection s i) i).criticalSectionTimer = 0 ∧
    (nd (releaseCriticalSection s i) i).timestamp = (nd s i).timestamp := by
  rw [releaseCS_spec s i h hheld]
  refine ⟨?_, rfl, ?_, ?_, ?_, ?_, ?_⟩
  · rw [nd_set_self _ _ _ _ _ h]
  · simp
  · intro d
    unfold repC
    simp only [List.countP_append, countP_repBatch]
    simp
  · rw [nd_set_self _ _ _ _ _ h]
  · rw [nd_set_self _ _ _ _ _ h]
  · rw [nd_set_self _ _ _ _ _ h]

/-- Witness for the amended C5 at a concrete input: releasing node 0 of
`c5State` flushes its one deferred reply (to node 1). -/
theorem c5_witness :
    (nd (releaseCriticalSection c5State 0) 0).deferredReplies = [] ∧
    (nd (releaseCriticalSection c5State 0) 0).criticalSectionTimer = 0 ∧
    (nd (releaseCriticalSection c5State 0) 0).timestamp = (nd c5State 0).timestamp :=
  ⟨(c5_release_flush c5State 0 (by decide) (by decide)).2.2.2.2.1,
   (c5_release_flush c5State 0 (by decide) (by decide)).2.2.2.2.2.1,
   (c5_release_flush c5State 0 (by decide) (by decide)).2.2.2.2.2.2⟩

/-- C6: the logical-clock tick computes max(current, received) + 1, and
the stored value equals the value returned to the caller. -/
theorem c6_updateLogicalClock (c t : Nat) :
    (updateLogicalClock c t).1 = Nat.max c t + 1 ∧
    (updateLogicalClock c t).2 = (updateLogicalClock c t).1 :=
  ⟨rfl, rfl⟩

/-- C7 as stated is false on the code: a node's clock can decrease.  In
the two-node demo run, node 0's clock reaches 3 while acquiring the
critical section (it merges the REPLY carrying timestamp 2), but when it
requests again after releasing, `requestCriticalSection` overwrites its
clock with the advanced *global* clock (which only ever advanced to 1),
setting it to 2 — a decrease from 3 to 2 caused by a legal operation
sequence. -/
theorem c7_counterexample :
    (nd demoState4 0).state = NodeState.RELEASED ∧
    (nd demoState4 0).logicalClock = 3 ∧
    demoState5 = requestCriticalSection demoState4 0 ∧
    (nd demoState5 0).logicalClock = 2 ∧
    (nd demoState5 0).logicalClock < (nd demoState4 0).logicalClock := by
  refine ⟨by decide, by decide, rfl, by decide, by decide⟩

/-- C7 amended: on every receive the receiver's clock is merged per
Lamport's rule (max with the incoming timestamp, plus one), so processing
a message never decreases any node's clock, and a release leaves every
node's clock unchanged (flushed replies reuse the current clock); but a
node issuing a fresh request takes its clock from the advanced shared
global clock, which can be smaller than its current clock, so the
per-node clock is not monotone across request operations. -/
theorem c7_receive_monotone (s : SystemState) (m : Message) (i k : Nat)
    (h : k < s.nodes.length) :
    (nd s k).logicalClock ≤ (nd (processMessage s m) k).logicalClock ∧
    (m.toId < s.nodes.length →
      (nd (processMessage s m) m.toId).logicalClock =
        Nat.max (nd s m.toId).logicalClock m.timestamp + 1) ∧
    (nd (releaseCriticalSection s i) k).logicalClock =
      (nd s k).logicalClock := by
  refine ⟨?_, ?_, ?_⟩
  · by_cases hto : m.toId < s.nodes.length
    · by_cases hk : m.toId = k
      · subst hk
        cases htm : m.type with
        | REQUEST =>
          by_cases hsr : shouldReply (mergedReceiver s m) m
          · rw [processMessage_request_reply s m hto htm hsr,
              nd_set_self _ _ _ _ _ hto]
            exact Nat.le_succ_of_le (Nat.le_max_left _ _)
          · rw [processMessage_request_defer s m hto htm hsr,
              nd_set_self _ _ _ _ _ hto]
            exact Nat.le_succ_of_le (Nat.le_max_left _ _)
        | REPLY =>
          rw [processMessage_reply s m hto htm, nd_set_self _ _ _ _ _ hto]
          unfold afterReply mergedReceiver
          by_cases hc : (nd s m.toId).state = NodeState.WANTED ∧
              ((nd s m.toId).pendingReplies.erase m.fromId).card = 0
          · simp only [hc, and_self, if_true, reduceIte]
            exact Nat.le_succ_of_le (Nat.le_max_left _ _)
          · rw [if_neg (by simpa using hc)]
            exact Nat.le_succ_of_le (Nat.le_max_left _ _)
      · cases htm : m.type with
        | REQUEST =>
          by_cases hsr : shouldReply (mergedReceiver s m) m
          · rw [processMessage_request_reply s m hto htm hsr, nd_set_ne _ _ _ _ _ _ hk, nd_getD]
          · rw [processMessage_request_defer s m hto htm hsr, nd_set_ne _ _ _ _ _ _ hk, nd_getD]
        | REPLY =>
          rw [processMessage_reply s m hto htm, nd_set_ne _ _ _ _ _ _ hk, nd_getD]
    · rw [processMessage_none s m (Nat.le_of_not_lt hto)]
  · intro hto
    cases htm : m.type with
    | REQUEST =>
      by_cases hsr : shouldReply (mergedReceiver s m) m
      · rw [processMessage_request_reply s m hto htm hsr, nd_set_self _ _ _ _ _ hto]
        rfl
      · rw [processMessage_request_defer s m hto htm hsr, nd_set_self _ _ _ _ _ hto]
        rfl
    | REPLY =>
      rw [processMessage_reply s m hto htm, nd_set_self _ _ _ _ _ hto]
      unfold afterReply mergedReceiver
      by_cases hc : (nd s m.toId).state = NodeState.WANTED ∧
          ((nd s m.toId).pendingReplies.erase m.fromId).card = 0
      · simp only [hc, and_self, if_true, reduceIte]
      · rw [if_neg (by simpa using hc)]
  · by_cases hi : i < s.nodes.length
    · by_cases hheld : (nd s i).state = NodeState.HELD
      · rw [releaseCS_spec s i hi hheld]
        by_cases hk : i = k
        · subst hk
          rw [nd_set_self _ _ _ _ _ hi]
        · rw [nd_set_ne _ _ _ _ _ _ hk, nd_getD]
      · rw [releaseCS_noop s i hi hheld]
    · unfold releaseCriticalSection
      rw [show s.nodes[i]? = none from List.getElem?_eq_none (Nat.le_of_not_lt hi)]

/-- Witness for the amended C7 at a concrete input. -/
theorem c7_witness :
    (nd demoState1 1).logicalClock ≤
      (nd (processMessage demoState1
        { fromId := 0, toId := 1, type := MessageType.REQUEST,
          timestamp := 1, delivered := false }) 1).logicalClock :=
  (c7_receive_monotone demoState1 _ 0 1 (by decide)).1

/-- C8: redelivering an already-delivered message is a complete no-op:
the whole system state (all nodes and the message collection) is exactly
unchanged. -/
theorem c8_redelivery_noop (s : SystemState) (k : Nat) (m : Message)
    (h : s.messages[k]? = some m) (hd : m.delivered = true) :
    deliverMessage s k = s :=
  deliverMessage_delivered s k m h hd

/-- Witness for C8 at a concrete input: message 0 of `demoState2` is
already delivered. -/
theorem c8_witness : deliverMessage demoState2 0 = demoState2 :=
  c8_redelivery_noop demoState2 0
    { fromId := 0, toId := 1, type := MessageType.REQUEST,
      timestamp := 1, delivered := true } (by decide) rfl

/-- C9: `requestCriticalSection` on a non-RELEASED node and
`releaseCriticalSection` on a non-HELD node are no-ops returning the
state exactly unchanged (nodes and messages included), not errors. -/
theorem c9_invalid_ops_noop (s : SystemState) (i : Nat)
    (h : i < s.nodes.length) :
    ((nd s i).state ≠ NodeState.RELEASED → requestCriticalSection s i = s) ∧
    ((nd s i).state ≠ NodeState.HELD → releaseCriticalSection s i = s) :=
  ⟨requestCS_noop s i h, releaseCS_noop s i h⟩

/-- Witness for C9 at a concrete input: node 0 of `demoState1` is WANTED,
so both invalid operations leave the state unchanged. -/
theorem c9_witness :
    requestCriticalSection demoState1 0 = demoState1 ∧
    releaseCriticalSection demoState1 0 = demoState1 :=
  ⟨(c9_invalid_ops_noop demoState1 0 (by decide)).1 (by decide),
   (c9_invalid_ops_noop demoState1 0 (by decide)).2 (by decide)⟩

/-- C10 as stated is false on the code: `initializeNodes` performs no
validation of the node count.  Called with count 1 (below the claimed
bound of 2) on a prior state with two nodes, one message and a nonzero
clock, it replaces the node collection, clears the messages and resets
the clock instead of rejecting the configuration and leaving the prior
state unchanged. -/
theorem c10_counterexample :
    initializeNodes 1 demoState3 ≠ demoState3 ∧
    (initializeNodes 1 demoState3).nodes.length = 1 ∧
    demoState3.nodes.length = 2 ∧
    (initializeNodes 1 demoState3).messages = [] ∧
    demoState3.messages ≠ [] ∧
    (initializeNodes 1 demoState3).logicalClock = 0 ∧
    demoState3.logicalClock = 1 := by
  decide

/-- C10 amended: `initializeNodes` accepts every count, including counts
below 2, and unconditionally replaces the node collection with `count`
fresh RELEASED nodes (with zeroed clocks, empty pending and deferred
sets), clears the message collection, and resets the global clock to 0. -/
theorem c10_initialize_unconditional (c : Nat) (s : SystemState) :
    (initializeNodes c s).nodes.length = c ∧
    (initializeNodes c s).messages = [] ∧
    (initializeNodes c s).logicalClock = 0 ∧
    ∀ k, k < c → nd (initializeNodes c s) k =
      { id := k, state := NodeState.RELEASED, timestamp := 0,
        pendingReplies := ∅, deferredReplies := [], logicalClock := 0,
        inCriticalSection := false, criticalSectionTimer := 0 } := by
  refine ⟨by simp [initializeNodes], rfl, rfl, fun k hk => ?_⟩
  unfold initializeNodes nd
  rw [List.getD_eq_getElem?_getD, List.getElem?_map, List.getElem?_range hk]
  rfl

/-! ### The invariant holds initially and is preserved by every step -/

theorem nd_out_of_range (s : SystemState) (k : Nat) (h : s.nodes.length ≤ k) :
    nd s k = default := by
  simp [nd, List.getD_eq_getElem?_getD, List.getElem?_eq_none h]

/-- Pointwise description of the node collection after a `List.set`. -/
theorem nd_set (l : List Node) (msgs : List Message) (c t k : Nat) (a : Node)
    (ht : t < l.length) :
    nd { nodes := l.set t a, messages := msgs, logicalClock := c } k =
      if t = k then a else l.getD k default := by
  by_cases htk : t = k
  · subst htk
    rw [nd_set_self _ _ _ _ _ ht, if_pos rfl]
  · rw [nd_set_ne _ _ _ _ _ _ htk, if_neg htk]

theorem initializeNodes_len (c : Nat) (s : SystemState) :
    (initializeNodes c s).nodes.length = c := by
  simp [initializeNodes]

theorem initializeNodes_nd (c : Nat) (s : SystemState) (k : Nat) (hk : k < c) :
    nd (initializeNodes c s) k =
      { id := k, state := NodeState.RELEASED, timestamp := 0,
        pendingReplies := ∅, deferredReplies := [], logicalClock := 0,
        inCriticalSection := false, criticalSectionTimer := 0 } := by
  unfold initializeNodes nd
  rw [List.getD_eq_getElem?_getD, List.getElem?_map, List.getElem?_range hk]
  rfl

theorem Inv_init (n : Nat) (s0 : SystemState) : Inv n (initializeNodes n s0) := by
  refine ⟨initializeNodes_len n s0, ?_, ?_, ?_, ?_, ?_, ?_, ?_, ?_, ?_⟩
  · intro k hk
    rw [initializeNodes_nd n s0 k hk]
  · intro m hm
    simp [initializeNodes] at hm
  · intro k hk d hd
    rw [initializeNodes_nd n s0 k hk] at hd
    simp at hd
  · intro k hk _
    rw [initializeNodes_nd n s0 k hk]
  · intro i j hi hj hij
    unfold reqC repC defC pendC
    rw [initializeNodes_nd n s0 j hj, initializeNodes_nd n s0 i hi]
    simp [initializeNodes]
  · intro m hm
    simp [initializeNodes] at hm
  · intro k hk
    unfold tsOf
    rw [initializeNodes_nd n s0 k hk]
    simp [initializeNodes]
  · intro i j hi hj hij hai
    unfold activeAt at hai
    rw [initializeNodes_nd n s0 i hi] at hai
    simp at hai
  · intro i j hi hj hij hrep
    unfold repC at hrep
    simp [initializeNodes] at hrep

/-- An undelivered message contributes to the matching in-flight count. -/
theorem inflight_pos (s : SystemState) (m : Message) (ty : MessageType)
    (hm : m ∈ s.messages) (hnd : m.delivered = false) (hty : m.type = ty) :
    0 < s.messages.countP (isInflight ty m.fromId m.toId) := by
  refine List.countP_pos_iff.mpr ⟨m, hm, ?_⟩
  simp [isInflight, hnd, hty]

/-- How every observation changes across a successful request. -/
theorem requestCS_obs (s : SystemState) (i : Nat) (hi : i < s.nodes.length)
    (hrel : (nd s i).state = NodeState.RELEASED) :
    (∀ a b, reqC (requestCriticalSection s i) a b =
      reqC s a b + (if a = i ∧ b < s.nodes.length ∧ b ≠ i then 1 else 0)) ∧
    (∀ a b, repC (requestCriticalSection s i) a b = repC s a b) ∧
    (∀ k, nd (requestCriticalSection s i) k =
      if i = k then reqNode s i else nd s k) ∧
    (requestCriticalSection s i).logicalClock = s.logicalClock + 1 := by
  rw [requestCS_spec s i hi hrel]
  refine ⟨?_, ?_, ?_, rfl⟩
  · intro a b
    unfold reqC
    simp only [List.countP_append, countP_reqBatch]
    simp
  · intro a b
    unfold repC
    simp only [List.countP_append, countP_reqBatch]
    simp
  · intro k
    rw [nd_set _ _ _ _ _ _ hi, nd_getD]
    by_cases hik : i = k
    · rw [if_pos hik, if_pos hik]
      exact rfl
    · rw [if_neg hik, if_neg hik]

/-- The invariant is preserved by `requestCriticalSection`. -/
theorem Inv_request (n : Nat) (s : SystemState) (i : Nat) (hInv : Inv n s) :
    Inv n (requestCriticalSection s i) := by
  by_cases hi : i < s.nodes.length
  · by_cases hrel : (nd s i).state = NodeState.RELEASED
    · have hi' : i < n := hInv.len ▸ hi
      have hpe : (nd s i).pendingReplies = ∅ :=
        hInv.pempty i hi' (by rw [hrel]; simp)
      obtain ⟨hreq, hrep, hnd, hlc⟩ := requestCS_obs s i hi hrel
      refine ⟨?_, ?_, ?_, ?_, ?_, ?_, ?_, ?_, ?_, ?_⟩
      · rw [requestCS_spec s i hi hrel]
        simp [hInv.len]
      · intro k hk
        rw [hnd k]
        by_cases hik : i = k
        · subst hik
          rw [if_pos rfl]
          exact hInv.ids i hi'
        · rw [if_neg hik]
          exact hInv.ids k hk
      · intro m hm
        rw [requestCS_spec s i hi hrel] at hm
        rcases List.mem_append.mp hm with hm | hm
        · exact hInv.mwf m hm
        · rcases List.mem_map.mp hm with ⟨j, hj, rfl⟩
          rcases List.mem_filter.mp hj with ⟨hjr, hjne⟩
          have hjn : j < n := hInv.len ▸ List.mem_range.mp hjr
          have hjne' : j ≠ i := by simpa using hjne
          exact ⟨hi', hjn, fun hij => hjne' hij.symm⟩
      · intro k hk d hd
        rw [hnd k] at hd
        by_cases hik : i = k
        · subst hik
          rw [if_pos rfl] at hd
          exact hInv.dwf i hi' d hd
        · rw [if_neg hik] at hd
          exact hInv.dwf k hk d hd
      · intro k hk hw
        rw [hnd k] at hw ⊢
        by_cases hik : i = k
        · subst hik
          rw [if_pos rfl] at hw
          exact absurd rfl hw
        · rw [if_neg hik] at hw ⊢
          exact hInv.pempty k hk hw
      · intro a b ha hb hab
        have hcons := hInv.conserve a b ha hb hab
        have hdefC : defC (requestCriticalSection s i) b a = defC s b a := by
          unfold defC
          rw [hnd b]
          by_cases hib : i = b
          · subst hib
            rw [if_pos rfl]
            simp only [reqNode]
          · rw [if_neg hib]
        have hpendC : pendC (requestCriticalSection s i) a b =
            if a = i then (if b < s.nodes.length ∧ b ≠ i then 1 else 0)
            else pendC s a b := by
          unfold pendC
          rw [hnd a]
          by_cases hia : i = a
          · subst hia
            rw [if_pos rfl, if_pos rfl]
            simp only [reqNode]
            by_cases hbm : b ∈ (Finset.range s.nodes.length).erase i
            · rw [if_pos hbm, if_pos]
              rcases Finset.mem_erase.mp hbm with ⟨hbne, hbr⟩
              exact ⟨Finset.mem_range.mp hbr, hbne⟩
            · rw [if_neg hbm, if_neg]
              intro hbc
              exact hbm (Finset.mem_erase.mpr ⟨hbc.2, Finset.mem_range.mpr hbc.1⟩)
          · rw [if_neg hia, if_neg (show ¬ a = i from fun hai => hia hai.symm)]
        rw [hreq a b, hrep b a, hdefC, hpendC]
        have hblen : b < s.nodes.length := hInv.len ▸ hb
        by_cases hai : a = i
        · subst hai
          have hpend0 : pendC s a b = 0 := by
            unfold pendC
            rw [hpe]
            simp
          have hbne : b ≠ a := fun hba => hab hba.symm
          split_ifs <;> omega
        · split_ifs <;> omega
      · intro m hm hmd hmr
        rw [requestCS_spec s i hi hrel] at hm
        have htsOf : ∀ k, k ≠ i → tsOf (requestCriticalSection s i) k = tsOf s k := by
          intro k hk
          unfold tsOf
          rw [hnd k, if_neg (fun h => hk h.symm)]
        rcases List.mem_append.mp hm with hm | hm
        · have hfi : m.fromId ≠ i := by
            intro hfi
            have hpos : 0 < reqC s m.fromId m.toId := by
              unfold reqC
              exact inflight_pos s m MessageType.REQUEST hm hmd hmr
            obtain ⟨hf, ht, hft⟩ := hInv.mwf m hm
            have := hInv.conserve m.fromId m.toId hf ht hft
            have hpc : pendC s m.fromId m.toId = 0 := by
              unfold pendC
              rw [hfi, hpe]
              simp
            omega
          rw [htsOf m.fromId hfi]
          exact hInv.reqts m hm hmd hmr
        · rcases List.mem_map.mp hm with ⟨j, hj, rfl⟩
          unfold tsOf
          have hfid : (reqMsg i j (s.logicalClock + 1)).fromId = i := rfl
          rw [hfid, hnd i, if_pos rfl]
          exact rfl
      · intro k hk
        rw [hlc]
        unfold tsOf
        rw [hnd k]
        by_cases hik : i = k
        · subst hik
          rw [if_pos rfl]
          exact Nat.le_refl _
        · rw [if_neg hik]
          exact Nat.le_succ_of_le (hInv.tsbound k hk)
      · intro a b ha hb hab hacta hactb hpnd
        unfold activeAt at hacta hactb
        rw [hnd a] at hacta hpnd
        rw [hnd b] at hactb
        unfold tsOf
        rw [hnd a, hnd b]
        by_cases hia : i = a
        · subst hia
          rw [if_pos rfl] at hpnd
          simp only [reqNode] at hpnd
          exfalso
          apply hpnd
          refine Finset.mem_erase.mpr ⟨fun hbi => hab hbi.symm, ?_⟩
          exact Finset.mem_range.mpr (hInv.len ▸ hb)
        · rw [if_neg hia] at hacta hpnd
          rw [if_neg hia]
          by_cases hib : i = b
          · subst hib
            rw [if_pos rfl]
            exact Or.inl (Nat.lt_succ_of_le (hInv.tsbound a ha))
          · rw [if_neg hib] at hactb
            rw [if_neg hib]
            exact hInv.prio a b ha hb hab hacta hactb hpnd
      · intro a b ha hb hab hrp hactb
        rw [hrep b a] at hrp
        unfold activeAt at hactb
        rw [hnd b] at hactb
        unfold tsOf
        rw [hnd a, hnd b]
        by_cases hia : i = a
        · subst hia
          exfalso
          have := hInv.conserve i b ha hb hab
          have hpc : pendC s i b = 0 := by
            unfold pendC
            rw [hpe]
            simp
          omega
        · rw [if_neg hia]
          by_cases hib : i = b
          · subst hib
            rw [if_pos rfl]
            exact Or.inl (Nat.lt_succ_of_le (hInv.tsbound a ha))
          · rw [if_neg hib] at hactb
            rw [if_neg hib]
            exact hInv.repprio a b ha hb hab hrp hactb
    · rw [requestCS_noop s i hi hrel]
      exact hInv
  · unfold requestCriticalSection
    rw [show s.nodes[i]? = none from List.getElem?_eq_none (Nat.le_of_not_lt hi)]
    exact hInv

theorem mem_of_getElem_eq_some (l : List Message) (k : Nat) (m : Message)
    (h : l[k]? = some m) : m ∈ l := by
  obtain ⟨hlt, hval⟩ := List.getElem?_eq_some.mp h
  rw [← hval]
  exact List.getElem_mem hlt

/-- How every observation changes across a successful release. -/
theorem releaseCS_obs (s : SystemState) (i : Nat) (hi : i < s.nodes.length)
    (hheld : (nd s i).state = NodeState.HELD) :
    (∀ a b, reqC (releaseCriticalSection s i) a b = reqC s a b) ∧
    (∀ a b, repC (releaseCriticalSection s i) a b =
      repC s a b + (if a = i then (nd s i).deferredReplies.count b else 0)) ∧
    (∀ k, nd (releaseCriticalSection s i) k =
      if i = k then relNode s i else nd s k) ∧
    (releaseCriticalSection s i).logicalClock = s.logicalClock := by
  rw [releaseCS_spec s i hi hheld]
  refine ⟨?_, ?_, ?_, rfl⟩
  · intro a b
    unfold reqC
    simp only [List.countP_append, countP_repBatch]
    simp
  · intro a b
    unfold repC
    simp only [List.countP_append, countP_repBatch]
    simp
  · intro k
    rw [nd_set _ _ _ _ _ _ hi, nd_getD]
    by_cases hik : i = k
    · rw [if_pos hik, if_pos hik]
      exact rfl
    · rw [if_neg hik, if_neg hik]

/-- The invariant is preserved by `releaseCriticalSection`. -/
theorem Inv_release (n : Nat) (s : SystemState) (i : Nat) (hInv : Inv n s) :
    Inv n (releaseCriticalSection s i) := by
  by_cases hi : i < s.nodes.length
  · by_cases hheld : (nd s i).state = NodeState.HELD
    · have hi' : i < n := hInv.len ▸ hi
      have hpe : (nd s i).pendingReplies = ∅ :=
        hInv.pempty i hi' (by rw [hheld]; simp)
      obtain ⟨hreq, hrep, hnd, hlc⟩ := releaseCS_obs s i hi hheld
      have htsOf : ∀ k, tsOf (releaseCriticalSection s i) k = tsOf s k := by
        intro k
        unfold tsOf
        rw [hnd k]
        by_cases hik : i = k
        · subst hik
          rw [if_pos rfl]
          exact rfl
        · rw [if_neg hik]
      refine ⟨?_, ?_, ?_, ?_, ?_, ?_, ?_, ?_, ?_, ?_⟩
      · rw [releaseCS_spec s i hi hheld]
        simp [hInv.len]
      · intro k hk
        rw [hnd k]
        by_cases hik : i = k
        · subst hik
          rw [if_pos rfl]
          exact hInv.ids i hi'
        · rw [if_neg hik]
          exact hInv.ids k hk
      · intro m hm
        rw [releaseCS_spec s i hi hheld] at hm
        rcases List.mem_append.mp hm with hm | hm
        · exact hInv.mwf m hm
        · rcases List.mem_map.mp hm with ⟨d, hd, rfl⟩
          obtain ⟨hdn, hdi⟩ := hInv.dwf i hi' d hd
          exact ⟨hi', hdn, fun hid => hdi hid.symm⟩
      · intro k hk d hd
        rw [hnd k] at hd
        by_cases hik : i = k
        · subst hik
          rw [if_pos rfl] at hd
          exact absurd hd (List.not_mem_nil d)
        · rw [if_neg hik] at hd
          exact hInv.dwf k hk d hd
      · intro k hk hw
        rw [hnd k] at hw ⊢
        by_cases hik : i = k
        · subst hik
          rw [if_pos rfl] at hw ⊢
          exact hpe
        · rw [if_neg hik] at hw ⊢
          exact hInv.pempty k hk hw
      · intro a b ha hb hab
        have hcons := hInv.conserve a b ha hb hab
        have hdefC : defC (releaseCriticalSection s i) b a =
            if b = i then 0 else defC s b a := by
          unfold defC
          rw [hnd b]
          by_cases hib : i = b
          · subst hib
            rw [if_pos rfl, if_pos rfl]
            exact rfl
          · rw [if_neg hib, if_neg (fun hbi => hib hbi.symm)]
        have hpendC : pendC (releaseCriticalSection s i) a b = pendC s a b := by
          unfold pendC
          rw [hnd a]
          by_cases hia : i = a
          · subst hia
            rw [if_pos rfl]
            exact rfl
          · rw [if_neg hia]
        rw [hreq a b, hrep b a, hdefC, hpendC]
        by_cases hbi : b = i
        · subst hbi
          rw [if_pos rfl, if_pos rfl]
          unfold defC at hcons
          omega
        · rw [if_neg hbi, if_neg hbi]
          omega
      · intro m hm hmd hmr
        rw [releaseCS_spec s i hi hheld] at hm
        rcases List.mem_append.mp hm with hm | hm
        · rw [htsOf m.fromId]
          exact hInv.reqts m hm hmd hmr
        · rcases List.mem_map.mp hm with ⟨d, hd, rfl⟩
          simp [repMsg] at hmr
      · intro k hk
        rw [hlc, htsOf k]
        exact hInv.tsbound k hk
      · intro a b ha hb hab hacta hactb hpnd
        unfold activeAt at hacta hactb
        rw [hnd a] at hacta hpnd
        rw [hnd b] at hactb
        rw [htsOf a, htsOf b]
        by_cases hia : i = a
        · subst hia
          rw [if_pos rfl] at hacta
          exact absurd rfl hacta
        · rw [if_neg hia] at hacta hpnd
          by_cases hib : i = b
          · subst hib
            rw [if_pos rfl] at hactb
            exact absurd rfl hactb
          · rw [if_neg hib] at hactb
            exact hInv.prio a b ha hb hab hacta hactb hpnd
      · intro a b ha hb hab hrp hactb
        rw [hrep b a] at hrp
        unfold activeAt at hactb
        rw [hnd b] at hactb
        rw [htsOf a, htsOf b]
        by_cases hib : i = b
        · subst hib
          rw [if_pos rfl] at hactb
          exact absurd rfl hactb
        · rw [if_neg hib] at hactb
          rw [if_neg (fun hbi => hib hbi.symm)] at hrp
          simp only [Nat.add_zero] at hrp
          exact hInv.repprio a b ha hb hab hrp hactb
    · rw [releaseCS_noop s i hi hheld]
      exact hInv
  · unfold releaseCriticalSection
    rw [show s.nodes[i]? = none from List.getElem?_eq_none (Nat.le_of_not_lt hi)]
    exact hInv

theorem isInflight_iff (ty : MessageType) (a b : Nat) (m : Message) :
    isInflight ty a b m = true ↔
      (m.delivered = false ∧ m.type = ty ∧ m.fromId = a ∧ m.toId = b) := by
  simp [isInflight, and_assoc]

/-- Marking the message at position `k` delivered removes exactly its own
contribution from every in-flight count. -/
theorem countP_deliver (msgs : List Message) (k : Nat) (m : Message)
    (hk : msgs[k]? = some m) (hd : m.delivered = false)
    (ty : MessageType) (a b : Nat) :
    (msgs.set k { m with delivered := true }).countP (isInflight ty a b) +
      (if m.type = ty ∧ m.fromId = a ∧ m.toId = b then 1 else 0) =
      msgs.countP (isInflight ty a b) := by
  have h := countP_set_add (isInflight ty a b) msgs k ({ m with delivered := true }) m hk
  have h1 : isInflight ty a b { m with delivered := true } = false := by
    simp [isInflight]
  rw [h1] at h
  simp only [Bool.false_eq_true, if_false, Nat.add_zero, reduceIte] at h
  have h2 : (if isInflight ty a b m = true then 1 else 0) =
      (if m.type = ty ∧ m.fromId = a ∧ m.toId = b then 1 else 0) := by
    by_cases hx : m.type = ty ∧ m.fromId = a ∧ m.toId = b
    · rw [if_pos hx, if_pos ((isInflight_iff ty a b m).mpr ⟨hd, hx.1, hx.2.1, hx.2.2⟩)]
    · rw [if_neg hx, if_neg]
      intro hax
      obtain ⟨hx1, hx2, hx3, hx4⟩ := (isInflight_iff ty a b m).mp hax
      exact hx ⟨hx2, hx3, hx4⟩
  rw [h2] at h
  exact h

theorem nd_update_msgs (x : SystemState) (msgs : List Message) (k : Nat) :
    nd { x with messages := msgs } k = nd x k := rfl

/-- How every observation changes across a REQUEST that is granted an
immediate reply. -/
theorem processMessage_obs_grant (s : SystemState) (m : Message)
    (hto : m.toId < s.nodes.length) (htm : m.type = MessageType.REQUEST)
    (hsr : shouldReply (mergedReceiver s m) m) :
    (∀ a b, reqC (processMessage s m) a b = reqC s a b) ∧
    (∀ a b, repC (processMessage s m) a b =
      repC s a b + (if a = m.toId ∧ b = m.fromId then 1 else 0)) ∧
    (∀ k, nd (processMessage s m) k =
      if m.toId = k then mergedReceiver s m else nd s k) ∧
    (processMessage s m).messages =
      s.messages ++ [repMsg m.toId m.fromId (mergedReceiver s m).logicalClock] ∧
    (processMessage s m).logicalClock = s.logicalClock := by
  rw [processMessage_request_reply s m hto htm hsr]
  refine ⟨?_, ?_, ?_, rfl, rfl⟩
  · intro a b
    unfold reqC
    simp only [List.countP_append, countP_singleRep]
    simp
  · intro a b
    unfold repC
    simp only [List.countP_append, countP_singleRep]
    simp
  · intro k
    rw [nd_set _ _ _ _ _ _ hto, nd_getD]

/-- How every observation changes across a REQUEST that is deferred. -/
theorem processMessage_obs_defer (s : SystemState) (m : Message)
    (hto : m.toId < s.nodes.length) (htm : m.type = MessageType.REQUEST)
    (hsr : ¬ shouldReply (mergedReceiver s m) m) :
    (∀ k, nd (processMessage s m) k =
      if m.toId = k then deferNode s m else nd s k) ∧
    (processMessage s m).messages = s.messages ∧
    (processMessage s m).logicalClock = s.logicalClock := by
  rw [processMessage_request_defer s m hto htm hsr]
  refine ⟨?_, rfl, rfl⟩
  intro k
  rw [nd_set _ _ _ _ _ _ hto, nd_getD]
  by_cases hik : m.toId = k
  · rw [if_pos hik, if_pos hik]
    exact rfl
  · rw [if_neg hik, if_neg hik]

/-- How every observation changes across a received REPLY. -/
theorem processMessage_obs_onreply (s : SystemState) (m : Message)
    (hto : m.toId < s.nodes.length) (htm : m.type = MessageType.REPLY) :
    (∀ k, nd (processMessage s m) k =
      if m.toId = k then afterReply s m else nd s k) ∧
    (processMessage s m).messages = s.messages ∧
    (processMessage s m).logicalClock = s.logicalClock := by
  rw [processMessage_reply s m hto htm]
  refine ⟨?_, rfl, rfl⟩
  intro k
  rw [nd_set _ _ _ _ _ _ hto, nd_getD]

theorem afterReply_pending (s : SystemState) (m : Message) :
    (afterReply s m).pendingReplies =
      (nd s m.toId).pendingReplies.erase m.fromId := by
  unfold afterReply mergedReceiver
  by_cases hc : (nd s m.toId).state = NodeState.WANTED ∧
      ((nd s m.toId).pendingReplies.erase m.fromId).card = 0
  · simp only [hc.1, hc.2, and_self, if_true, reduceIte]
  · rw [if_neg (by simpa using hc)]

theorem afterReply_timestamp (s : SystemState) (m : Message) :
    (afterReply s m).timestamp = (nd s m.toId).timestamp := by
  unfold afterReply mergedReceiver
  by_cases hc : (nd s m.toId).state = NodeState.WANTED ∧
      ((nd s m.toId).pendingReplies.erase m.fromId).card = 0
  · simp only [hc.1, hc.2, and_self, if_true, reduceIte]
  · rw [if_neg (by simpa using hc)]

theorem afterReply_deferred (s : SystemState) (m : Message) :
    (afterReply s m).deferredReplies = (nd s m.toId).deferredReplies := by
  unfold afterReply mergedReceiver
  by_cases hc : (nd s m.toId).state = NodeState.WANTED ∧
      ((nd s m.toId).pendingReplies.erase m.fromId).card = 0
  · simp only [hc.1, hc.2, and_self, if_true, reduceIte]
  · rw [if_neg (by simpa using hc)]

theorem afterReply_id (s : SystemState) (m : Message) :
    (afterReply s m).id = (nd s m.toId).id := by
  unfold afterReply mergedReceiver
  by_cases hc : (nd s m.toId).state = NodeState.WANTED ∧
      ((nd s m.toId).pendingReplies.erase m.fromId).card = 0
  · simp only [hc.1, hc.2, and_self, if_true, reduceIte]
  · rw [if_neg (by simpa using hc)]

theorem afterReply_state_cases (s : SystemState) (m : Message) :
    ((nd s m.toId).state = NodeState.WANTED ∧
      ((nd s m.toId).pendingReplies.erase m.fromId).card = 0 ∧
      (afterReply s m).state = NodeState.HELD) ∨
    (afterReply s m).state = (nd s m.toId).state := by
  unfold afterReply mergedReceiver
  by_cases hc : (nd s m.toId).state = NodeState.WANTED ∧
      ((nd s m.toId).pendingReplies.erase m.fromId).card = 0
  · left
    refine ⟨hc.1, hc.2, ?_⟩
    simp only [hc.1, hc.2, and_self, if_true, reduceIte]
  · right
    rw [if_neg (by simpa using hc)]

/-- The invariant is preserved when delivery of a REQUEST triggers an
immediate reply. -/
theorem Inv_deliver_grant (n : Nat) (s : SystemState) (k : Nat) (m : Message)
    (hk : s.messages[k]? = some m) (hd : m.delivered = false)
    (htm : m.type = MessageType.REQUEST)
    (hsr : shouldReply (mergedReceiver s m) m) (hInv : Inv n s) :
    Inv n (deliverMessage s k) := by
  have hm_mem : m ∈ s.messages := mem_of_getElem_eq_some s.messages k m hk
  obtain ⟨hfn, htn, hft⟩ := hInv.mwf m hm_mem
  have hto : m.toId < s.nodes.length := hInv.len ▸ htn
  have hkl : k < s.messages.length := (List.getElem?_eq_some.mp hk).1
  obtain ⟨hreqP, hrepP, hndP, hmsgsP, hlcP⟩ :=
    processMessage_obs_grant s m hto htm hsr
  have hPk : (processMessage s m).messages[k]? = some m := by
    rw [hmsgsP, List.getElem?_append, if_pos hkl]
    exact hk
  have hmsgD : (deliverMessage s k).messages =
      (processMessage s m).messages.set k { m with delivered := true } := by
    rw [deliverMessage_spec s k m hk hd]
  have hndD : ∀ x, nd (deliverMessage s k) x =
      if m.toId = x then mergedReceiver s m else nd s x := by
    intro x
    rw [deliverMessage_spec s k m hk hd, nd_update_msgs, hndP x]
  have hlcD : (deliverMessage s k).logicalClock = s.logicalClock := by
    rw [deliverMessage_spec s k m hk hd]
    exact hlcP
  have hlenD : (deliverMessage s k).nodes.length = s.nodes.length := by
    rw [deliverMessage_spec s k m hk hd, processMessage_request_reply s m hto htm hsr]
    simp [List.length_set]
  have hfields : ∀ x, (nd (deliverMessage s k) x).state = (nd s x).state ∧
      (nd (deliverMessage s k) x).pendingReplies = (nd s x).pendingReplies ∧
      (nd (deliverMessage s k) x).timestamp = (nd s x).timestamp ∧
      (nd (deliverMessage s k) x).id = (nd s x).id ∧
      (nd (deliverMessage s k) x).deferredReplies = (nd s x).deferredReplies := by
    intro x
    rw [hndD x]
    by_cases hx : m.toId = x
    · subst hx
      rw [if_pos rfl]
      exact ⟨rfl, rfl, rfl, rfl, rfl⟩
    · rw [if_neg hx]
      exact ⟨rfl, rfl, rfl, rfl, rfl⟩
  have hts : ∀ x, tsOf (deliverMessage s k) x = tsOf s x := by
    intro x
    unfold tsOf
    rw [(hfields x).2.2.1]
  have hreqD : ∀ a b, reqC (deliverMessage s k) a b +
      (if m.fromId = a ∧ m.toId = b then 1 else 0) = reqC s a b := by
    intro a b
    have hc := countP_deliver (processMessage s m).messages k m hPk hd
      MessageType.REQUEST a b
    have hcond : (m.type = MessageType.REQUEST ∧ m.fromId = a ∧ m.toId = b) ↔
        (m.fromId = a ∧ m.toId = b) := by
      rw [htm]
      simp
    rw [if_congr hcond rfl rfl] at hc
    have hD : reqC (deliverMessage s k) a b =
        ((processMessage s m).messages.set k
          { m with delivered := true }).countP
          (isInflight MessageType.REQUEST a b) := by
      unfold reqC
      rw [hmsgD]
    rw [hD, hc]
    exact hreqP a b
  have hrepD : ∀ a b, repC (deliverMessage s k) a b =
      repC s a b + (if a = m.toId ∧ b = m.fromId then 1 else 0) := by
    intro a b
    have hc := countP_deliver (processMessage s m).messages k m hPk hd
      MessageType.REPLY a b
    have hcond : ¬ (m.type = MessageType.REPLY ∧ m.fromId = a ∧ m.toId = b) := by
      rw [htm]
      rintro ⟨hx, -⟩
      exact absurd hx (by decide)
    rw [if_neg hcond, Nat.add_zero] at hc
    have hD : repC (deliverMessage s k) a b =
        ((processMessage s m).messages.set k
          { m with delivered := true }).countP
          (isInflight MessageType.REPLY a b) := by
      unfold repC
      rw [hmsgD]
    rw [hD, hc]
    exact hrepP a b
  refine ⟨?_, ?_, ?_, ?_, ?_, ?_, ?_, ?_, ?_, ?_⟩
  · rw [hlenD, hInv.len]
  · intro x hx
    rw [(hfields x).2.2.2.1]
    exact hInv.ids x hx
  · intro mm hmm
    rw [hmsgD] at hmm
    rcases List.mem_or_eq_of_mem_set hmm with hmm | heq
    · rw [hmsgsP] at hmm
      rcases List.mem_append.mp hmm with hmm | hmm
      · exact hInv.mwf mm hmm
      · rcases List.mem_singleton.mp hmm with rfl
        exact ⟨htn, hfn, fun h => hft h.symm⟩
    · rw [heq]
      exact ⟨hfn, htn, hft⟩
  · intro x hx d hd2
    rw [(hfields x).2.2.2.2] at hd2
    exact hInv.dwf x hx d hd2
  · intro x hx hw
    rw [(hfields x).1] at hw
    rw [(hfields x).2.1]
    exact hInv.pempty x hx hw
  · intro a b ha hb hab
    have hc0 := hInv.conserve a b ha hb hab
    have h1 := hreqD a b
    have h2 := hrepD b a
    have hdef : defC (deliverMessage s k) b a = defC s b a := by
      unfold defC
      rw [(hfields b).2.2.2.2]
    have hpend : pendC (deliverMessage s k) a b = pendC s a b := by
      unfold pendC
      rw [(hfields a).2.1]
    have hiff : (if m.fromId = a ∧ m.toId = b then 1 else 0) =
        (if b = m.toId ∧ a = m.fromId then 1 else 0) := by
      by_cases hcond : m.fromId = a ∧ m.toId = b
      · rw [if_pos hcond, if_pos ⟨hcond.2.symm, hcond.1.symm⟩]
      · rw [if_neg hcond, if_neg (fun hx => hcond ⟨hx.2.symm, hx.1.symm⟩)]
    rw [hdef, hpend, h2]
    omega
  · intro mm hmm hmd hmr
    rw [hts mm.fromId]
    rw [hmsgD] at hmm
    rcases List.mem_or_eq_of_mem_set hmm with hmm | heq
    · rw [hmsgsP] at hmm
      rcases List.mem_append.mp hmm with hmm | hmm
      · exact hInv.reqts mm hmm hmd hmr
      · rcases List.mem_singleton.mp hmm with rfl
        simp [repMsg] at hmr
    · rw [heq] at hmd
      simp at hmd
  · intro x hx
    rw [hts x, hlcD]
    exact hInv.tsbound x hx
  · intro a b ha hb hab hacta hactb hpnd
    unfold activeAt at hacta hactb
    rw [(hfields a).1] at hacta
    rw [(hfields b).1] at hactb
    rw [(hfields a).2.1] at hpnd
    unfold tlt tsOf
    rw [(hfields a).2.2.1, (hfields b).2.2.1]
    exact hInv.prio a b ha hb hab hacta hactb hpnd
  · intro a b ha hb hab hrp hactb
    rw [hrepD b a] at hrp
    unfold activeAt at hactb
    rw [(hfields b).1] at hactb
    by_cases hnew : b = m.toId ∧ a = m.fromId
    · obtain ⟨hbt, haf⟩ := hnew
      subst hbt
      subst haf
      rcases hsr with hrel | ⟨hw, hcmp⟩
      · exact absurd hrel hactb
      · have hts_m : m.timestamp = tsOf s m.fromId :=
          hInv.reqts m hm_mem hd htm
        have hid_t : (mergedReceiver s m).id = m.toId :=
          hInv.ids m.toId (hInv.len ▸ hto)
        have hts_t : (mergedReceiver s m).timestamp = tsOf s m.toId := rfl
        rw [hts_m, hid_t, hts_t] at hcmp
        unfold tlt
        rw [hts m.fromId, hts m.toId]
        exact hcmp
    · rw [if_neg hnew, Nat.add_zero] at hrp
      unfold tlt tsOf
      rw [(hfields a).2.2.1, (hfields b).2.2.1]
      exact hInv.repprio a b ha hb hab hrp hactb

theorem count_one_aux (x y : Nat) : List.count x [y] = if x = y then 1 else 0 := by
  by_cases h : x = y
  · subst h
    simp
  · have hb : ¬ ((y == x) = true) := by
      simp only [beq_iff_eq]
      exact fun hyx => h hyx.symm
    rw [if_neg h, List.count_singleton, if_neg hb]

/-- The invariant is preserved when delivery of a REQUEST is deferred. -/
theorem Inv_deliver_defer (n : Nat) (s : SystemState) (k : Nat) (m : Message)
    (hk : s.messages[k]? = some m) (hd : m.delivered = false)
    (htm : m.type = MessageType.REQUEST)
    (hsr : ¬ shouldReply (mergedReceiver s m) m) (hInv : Inv n s) :
    Inv n (deliverMessage s k) := by
  have hm_mem : m ∈ s.messages := mem_of_getElem_eq_some s.messages k m hk
  obtain ⟨hfn, htn, hft⟩ := hInv.mwf m hm_mem
  have hto : m.toId < s.nodes.length := hInv.len ▸ htn
  obtain ⟨hndP, hmsgsP, hlcP⟩ := processMessage_obs_defer s m hto htm hsr
  have hPk : (processMessage s m).messages[k]? = some m := by
    rw [hmsgsP]
    exact hk
  have hmsgD : (deliverMessage s k).messages =
      (processMessage s m).messages.set k { m with delivered := true } := by
    rw [deliverMessage_spec s k m hk hd]
  have hndD : ∀ x, nd (deliverMessage s k) x =
      if m.toId = x then deferNode s m else nd s x := by
    intro x
    rw [deliverMessage_spec s k m hk hd, nd_update_msgs, hndP x]
  have hlcD : (deliverMessage s k).logicalClock = s.logicalClock := by
    rw [deliverMessage_spec s k m hk hd]
    exact hlcP
  have hlenD : (deliverMessage s k).nodes.length = s.nodes.length := by
    rw [deliverMessage_spec s k m hk hd,
      processMessage_request_defer s m hto htm hsr]
    simp [List.length_set]
  have hfields : ∀ x, (nd (deliverMessage s k) x).state = (nd s x).state ∧
      (nd (deliverMessage s k) x).pendingReplies = (nd s x).pendingReplies ∧
      (nd (deliverMessage s k) x).timestamp = (nd s x).timestamp ∧
      (nd (deliverMessage s k) x).id = (nd s x).id := by
    intro x
    rw [hndD x]
    by_cases hx : m.toId = x
    · subst hx
      rw [if_pos rfl]
      exact ⟨rfl, rfl, rfl, rfl⟩
    · rw [if_neg hx]
      exact ⟨rfl, rfl, rfl, rfl⟩
  have hdeferD : ∀ x, (nd (deliverMessage s k) x).deferredReplies =
      if m.toId = x then (nd s m.toId).deferredReplies ++ [m.fromId]
      else (nd s x).deferredReplies := by
    intro x
    rw [hndD x]
    by_cases hx : m.toId = x
    · rw [if_pos hx, if_pos hx]
      exact rfl
    · rw [if_neg hx, if_neg hx]
  have hts : ∀ x, tsOf (deliverMessage s k) x = tsOf s x := by
    intro x
    unfold tsOf
    rw [(hfields x).2.2.1]
  have hreqD : ∀ a b, reqC (deliverMessage s k) a b +
      (if m.fromId = a ∧ m.toId = b then 1 else 0) = reqC s a b := by
    intro a b
    have hc := countP_deliver (processMessage s m).messages k m hPk hd
      MessageType.REQUEST a b
    have hcond : (m.type = MessageType.REQUEST ∧ m.fromId = a ∧ m.toId = b) ↔
        (m.fromId = a ∧ m.toId = b) := by
      rw [htm]
      simp
    rw [if_congr hcond rfl rfl] at hc
    have hD : reqC (deliverMessage s k) a b =
        ((processMessage s m).messages.set k
          { m with delivered := true }).countP
          (isInflight MessageType.REQUEST a b) := by
      unfold reqC
      rw [hmsgD]
    rw [hD, hc]
    unfold reqC
    rw [hmsgsP]
  have hrepD : ∀ a b, repC (deliverMessage s k) a b = repC s a b := by
    intro a b
    have hc := countP_deliver (processMessage s m).messages k m hPk hd
      MessageType.REPLY a b
    have hcond : ¬ (m.type = MessageType.REPLY ∧ m.fromId = a ∧ m.toId = b) := by
      rw [htm]
      rintro ⟨hx, -⟩
      exact absurd hx (by decide)
    rw [if_neg hcond, Nat.add_zero] at hc
    have hD : repC (deliverMessage s k) a b =
        ((processMessage s m).messages.set k
          { m with delivered := true }).countP
          (isInflight MessageType.REPLY a b) := by
      unfold repC
      rw [hmsgD]
    rw [hD, hc]
    unfold repC
    rw [hmsgsP]
  have hdefD : ∀ x y, defC (deliverMessage s k) x y =
      defC s x y + (if x = m.toId ∧ y = m.fromId then 1 else 0) := by
    intro x y
    unfold defC
    rw [hdeferD x]
    by_cases hx : m.toId = x
    · subst hx
      rw [if_pos rfl]
      have hcong : (m.toId = m.toId ∧ y = m.fromId) ↔ (y = m.fromId) := by
        simp
      rw [if_congr hcong rfl rfl, List.count_append, count_one_aux]
    · rw [if_neg hx, if_neg (fun hc => hx hc.1.symm), Nat.add_zero]
  refine ⟨?_, ?_, ?_, ?_, ?_, ?_, ?_, ?_, ?_, ?_⟩
  · rw [hlenD, hInv.len]
  · intro x hx
    rw [(hfields x).2.2.2]
    exact hInv.ids x hx
  · intro mm hmm
    rw [hmsgD] at hmm
    rcases List.mem_or_eq_of_mem_set hmm with hmm | heq
    · rw [hmsgsP] at hmm
      exact hInv.mwf mm hmm
    · rw [heq]
      exact ⟨hfn, htn, hft⟩
  · intro x hx d hd2
    rw [hdeferD x] at hd2
    by_cases hxt : m.toId = x
    · rw [if_pos hxt] at hd2
      rcases List.mem_append.mp hd2 with hd2 | hd2
      · exact hxt ▸ hInv.dwf m.toId (hInv.len ▸ htn) d hd2
      · rcases List.mem_singleton.mp hd2 with rfl
        exact ⟨hfn, hxt ▸ hft⟩
    · rw [if_neg hxt] at hd2
      exact hInv.dwf x hx d hd2
  · intro x hx hw
    rw [(hfields x).1] at hw
    rw [(hfields x).2.1]
    exact hInv.pempty x hx hw
  · intro a b ha hb hab
    have hc0 := hInv.conserve a b ha hb hab
    have h1 := hreqD a b
    have h2 := hdefD b a
    have hpend : pendC (deliverMessage s k) a b = pendC s a b := by
      unfold pendC
      rw [(hfields a).2.1]
    have hiff : (if m.fromId = a ∧ m.toId = b then 1 else 0) =
        (if b = m.toId ∧ a = m.fromId then 1 else 0) := by
      by_cases hcond : m.fromId = a ∧ m.toId = b
      · rw [if_pos hcond, if_pos ⟨hcond.2.symm, hcond.1.symm⟩]
      · rw [if_neg hcond, if_neg (fun hx => hcond ⟨hx.2.symm, hx.1.symm⟩)]
    rw [hpend, h2, hrepD b a]
    omega
  · intro mm hmm hmd hmr
    rw [hts mm.fromId]
    rw [hmsgD] at hmm
    rcases List.mem_or_eq_of_mem_set hmm with hmm | heq
    · rw [hmsgsP] at hmm
      exact hInv.reqts mm hmm hmd hmr
    · rw [heq] at hmd
      simp at hmd
  · intro x hx
    rw [hts x, hlcD]
    exact hInv.tsbound x hx
  · intro a b ha hb hab hacta hactb hpnd
    unfold activeAt at hacta hactb
    rw [(hfields a).1] at hacta
    rw [(hfields b).1] at hactb
    rw [(hfields a).2.1] at hpnd
    unfold tlt tsOf
    rw [(hfields a).2.2.1, (hfields b).2.2.1]
    exact hInv.prio a b ha hb hab hacta hactb hpnd
  · intro a b ha hb hab hrp hactb
    rw [hrepD b a] at hrp
    unfold activeAt at hactb
    rw [(hfields b).1] at hactb
    unfold tlt tsOf
    rw [(hfields a).2.2.1, (hfields b).2.2.1]
    exact hInv.repprio a b ha hb hab hrp hactb

/-- The invariant is preserved when a REPLY is delivered. -/
theorem Inv_deliver_onreply (n : Nat) (s : SystemState) (k : Nat) (m : Message)
    (hk : s.messages[k]? = some m) (hd : m.delivered = false)
    (htm : m.type = MessageType.REPLY) (hInv : Inv n s) :
    Inv n (deliverMessage s k) := by
  have hm_mem : m ∈ s.messages := mem_of_getElem_eq_some s.messages k m hk
  obtain ⟨hfn, htn, hft⟩ := hInv.mwf m hm_mem
  have hto : m.toId < s.nodes.length := hInv.len ▸ htn
  obtain ⟨hndP, hmsgsP, hlcP⟩ := processMessage_obs_onreply s m hto htm
  have hPk : (processMessage s m).messages[k]? = some m := by
    rw [hmsgsP]
    exact hk
  have hmsgD : (deliverMessage s k).messages =
      (processMessage s m).messages.set k { m with delivered := true } := by
    rw [deliverMessage_spec s k m hk hd]
  have hndD : ∀ x, nd (deliverMessage s k) x =
      if m.toId = x then afterReply s m else nd s x := by
    intro x
    rw [deliverMessage_spec s k m hk hd, nd_update_msgs, hndP x]
  have hlcD : (deliverMessage s k).logicalClock = s.logicalClock := by
    rw [deliverMessage_spec s k m hk hd]
    exact hlcP
  have hlenD : (deliverMessage s k).nodes.length = s.nodes.length := by
    rw [deliverMessage_spec s k m hk hd, processMessage_reply s m hto htm]
    simp [List.length_set]
  have hts : ∀ x, tsOf (deliverMessage s k) x = tsOf s x := by
    intro x
    unfold tsOf
    rw [hndD x]
    by_cases hx : m.toId = x
    · subst hx
      rw [if_pos rfl, afterReply_timestamp]
    · rw [if_neg hx]
  have hidD : ∀ x, (nd (deliverMessage s k) x).id = (nd s x).id := by
    intro x
    rw [hndD x]
    by_cases hx : m.toId = x
    · subst hx
      rw [if_pos rfl, afterReply_id]
    · rw [if_neg hx]
  have hdeferD : ∀ x, (nd (deliverMessage s k) x).deferredReplies =
      (nd s x).deferredReplies := by
    intro x
    rw [hndD x]
    by_cases hx : m.toId = x
    · subst hx
      rw [if_pos rfl, afterReply_deferred]
    · rw [if_neg hx]
  have hactD : ∀ x,
      ((nd (deliverMessage s k) x).state ≠ NodeState.RELEASED ↔
        (nd s x).state ≠ NodeState.RELEASED) := by
    intro x
    rw [hndD x]
    by_cases hx : m.toId = x
    · subst hx
      rw [if_pos rfl]
      rcases afterReply_state_cases s m with ⟨hw, hc0, hh⟩ | heq
      · rw [hh, hw]
        constructor
        · intro _ hcon
          cases hcon
        · intro _ hcon
          cases hcon
      · rw [heq]
    · rw [if_neg hx]
  have hpendT : (nd (deliverMessage s k) m.toId).pendingReplies =
      (nd s m.toId).pendingReplies.erase m.fromId := by
    rw [hndD m.toId, if_pos rfl, afterReply_pending]
  have hpendO : ∀ x, x ≠ m.toId →
      (nd (deliverMessage s k) x).pendingReplies =
        (nd s x).pendingReplies := by
    intro x hx
    rw [hndD x, if_neg (fun hc => hx hc.symm)]
  have hreqD : ∀ a b, reqC (deliverMessage s k) a b = reqC s a b := by
    intro a b
    have hc := countP_deliver (processMessage s m).messages k m hPk hd
      MessageType.REQUEST a b
    have hcond : ¬ (m.type = MessageType.REQUEST ∧ m.fromId = a ∧ m.toId = b) := by
      rw [htm]
      rintro ⟨hx, -⟩
      exact absurd hx (by decide)
    rw [if_neg hcond, Nat.add_zero] at hc
    have hD : reqC (deliverMessage s k) a b =
        ((processMessage s m).messages.set k
          { m with delivered := true }).countP
          (isInflight MessageType.REQUEST a b) := by
      unfold reqC
      rw [hmsgD]
    rw [hD, hc]
    unfold reqC
    rw [hmsgsP]
  have hrepD : ∀ a b, repC (deliverMessage s k) a b +
      (if m.fromId = a ∧ m.toId = b then 1 else 0) = repC s a b := by
    intro a b
    have hc := countP_deliver (processMessage s m).messages k m hPk hd
      MessageType.REPLY a b
    have hcond : (m.type = MessageType.REPLY ∧ m.fromId = a ∧ m.toId = b) ↔
        (m.fromId = a ∧ m.toId = b) := by
      rw [htm]
      simp
    rw [if_congr hcond rfl rfl] at hc
    have hD : repC (deliverMessage s k) a b =
        ((processMessage s m).messages.set k
          { m with delivered := true }).countP
          (isInflight MessageType.REPLY a b) := by
      unfold repC
      rw [hmsgD]
    rw [hD, hc]
    unfold repC
    rw [hmsgsP]
  have hrep_pos : 1 ≤ repC s m.fromId m.toId := by
    unfold repC
    exact inflight_pos s m MessageType.REPLY hm_mem hd htm
  refine ⟨?_, ?_, ?_, ?_, ?_, ?_, ?_, ?_, ?_, ?_⟩
  · rw [hlenD, hInv.len]
  · intro x hx
    rw [hidD x]
    exact hInv.ids x hx
  · intro mm hmm
    rw [hmsgD] at hmm
    rcases List.mem_or_eq_of_mem_set hmm with hmm | heq
    · rw [hmsgsP] at hmm
      exact hInv.mwf mm hmm
    · rw [heq]
      exact ⟨hfn, htn, hft⟩
  · intro x hx d hd2
    rw [hdeferD x] at hd2
    exact hInv.dwf x hx d hd2
  · intro x hx hw
    by_cases hxt : x = m.toId
    · subst hxt
      rw [hpendT]
      rw [hndD m.toId, if_pos rfl] at hw
      rcases afterReply_state_cases s m with ⟨hwd, hc0, hh⟩ | heq
      · exact Finset.card_eq_zero.mp hc0
      · rw [heq] at hw
        rw [hInv.pempty m.toId hx hw, Finset.erase_empty]
    · rw [hpendO x hxt]
      rw [hndD x, if_neg (fun hc => hxt hc.symm)] at hw
      exact hInv.pempty x hx hw
  · intro a b ha hb hab
    have hc0 := hInv.conserve a b ha hb hab
    have h1 := hreqD a b
    have h2 := hrepD b a
    have hdef : defC (deliverMessage s k) b a = defC s b a := by
      unfold defC
      rw [hdeferD b]
    have hpb : pendC s a b ≤ 1 := by
      unfold pendC
      split_ifs <;> omega
    by_cases hat : a = m.toId ∧ b = m.fromId
    · obtain ⟨hat1, hat2⟩ := hat
      have hpend0 : pendC (deliverMessage s k) a b = 0 := by
        unfold pendC
        rw [hat1, hpendT, if_neg]
        rw [hat2]
        exact Finset.not_mem_erase m.fromId _
      have hco : reqC s a b + defC s b a + repC s b a = pendC s a b := hc0
      have hrpos : 1 ≤ repC s b a := by
        rw [hat1, hat2]
        exact hrep_pos
      have h2' : repC (deliverMessage s k) b a + 1 = repC s b a := by
        rw [← h2, if_pos ⟨hat2.symm, hat1.symm⟩]
      rw [hpend0, h1, hdef]
      omega
    · have hpend : pendC (deliverMessage s k) a b = pendC s a b := by
        unfold pendC
        by_cases hat1 : a = m.toId
        · have hbt2 : b ≠ m.fromId := fun hb2 => hat ⟨hat1, hb2⟩
          rw [hat1, hpendT]
          by_cases hbm : b ∈ (nd s m.toId).pendingReplies
          · rw [if_pos (Finset.mem_erase_of_ne_of_mem hbt2 hbm), if_pos hbm]
          · rw [if_neg (fun hc => hbm (Finset.mem_erase.mp hc).2), if_neg hbm]
        · rw [hpendO a hat1]
      have h2' : repC (deliverMessage s k) b a = repC s b a := by
        rw [← h2, if_neg (fun hx => hat ⟨hx.2.symm, hx.1.symm⟩), Nat.add_zero]
      rw [hpend, h1, hdef, h2']
      exact hc0
  · intro mm hmm hmd hmr
    rw [hts mm.fromId]
    rw [hmsgD] at hmm
    rcases List.mem_or_eq_of_mem_set hmm with hmm | heq
    · rw [hmsgsP] at hmm
      exact hInv.reqts mm hmm hmd hmr
    · rw [heq] at hmd
      simp at hmd
  · intro x hx
    rw [hts x, hlcD]
    exact hInv.tsbound x hx
  · intro a b ha hb hab hacta hactb hpnd
    have hacta' : activeAt s a := (hactD a).mp hacta
    have hactb' : activeAt s b := (hactD b).mp hactb
    unfold tlt tsOf
    have hgoal : tlt (tsOf s a) a (tsOf s b) b →
        tlt (tsOf (deliverMessage s k) a) a (tsOf (deliverMessage s k) b) b := by
      rw [hts a, hts b]
      exact id
    apply hgoal
    by_cases hat : a = m.toId
    · subst hat
      rw [hpendT] at hpnd
      by_cases hbf : b = m.fromId
      · subst hbf
        exact hInv.repprio m.toId m.fromId ha hb hab hrep_pos hactb'
      · have hpnd' : b ∉ (nd s m.toId).pendingReplies := by
          intro hbm
          exact hpnd (Finset.mem_erase_of_ne_of_mem hbf hbm)
        exact hInv.prio m.toId b ha hb hab hacta' hactb' hpnd'
    · rw [hpendO a hat] at hpnd
      exact hInv.prio a b ha hb hab hacta' hactb' hpnd
  · intro a b ha hb hab hrp hactb
    have hactb' : activeAt s b := (hactD b).mp hactb
    have hrp' : 1 ≤ repC s b a := by
      have h2 := hrepD b a
      omega
    unfold tlt tsOf
    have hgoal : tlt (tsOf s a) a (tsOf s b) b →
        tlt (tsOf (deliverMessage s k) a) a (tsOf (deliverMessage s k) b) b := by
      rw [hts a, hts b]
      exact id
    apply hgoal
    exact hInv.repprio a b ha hb hab hrp' hactb'

/-- The invariant is preserved by `deliverMessage`. -/
theorem Inv_deliver (n : Nat) (s : SystemState) (k : Nat) (hInv : Inv n s) :
    Inv n (deliverMessage s k) := by
  cases hk : s.messages[k]? with
  | none =>
    rw [deliverMessage_none s k hk]
    exact hInv
  | some m =>
    cases hd : m.delivered with
    | true =>
      rw [deliverMessage_delivered s k m hk hd]
      exact hInv
    | false =>
      cases htm : m.type with
      | REQUEST =>
        by_cases hsr : shouldReply (mergedReceiver s m) m
        · exact Inv_deliver_grant n s k m hk hd htm hsr hInv
        · exact Inv_deliver_defer n s k m hk hd htm hsr hInv
      | REPLY => exact Inv_deliver_onreply n s k m hk hd htm hInv

/-- The invariant is preserved by every engine step. -/
theorem Inv_step (n : Nat) (s s' : SystemState) (hInv : Inv n s)
    (hs : Step s s') : Inv n s' := by
  cases hs with
  | request i => exact Inv_request n s i hInv
  | deliver k => exact Inv_deliver n s k hInv
  | release i => exact Inv_release n s i hInv

/-- Every reachable state satisfies the invariant. -/
theorem Inv_reachable (n : Nat) (s : SystemState) (h : Reachable n s) :
    Inv n s := by
  induction h with
  | init s0 => exact Inv_init n s0
  | step s s' hr hs ih => exact Inv_step n s s' ih hs

/-- C1: mutual exclusion.  In every state reachable from an
`initializeNodes n` reset by any interleaving of requests, message
deliveries and releases, at most one node is HELD: two HELD node indices
are equal. -/
theorem c1_mutual_exclusion (n : Nat) (s : SystemState) (i j : Nat)
    (hr : Reachable n s) (hi : (nd s i).state = NodeState.HELD)
    (hj : (nd s j).state = NodeState.HELD) : i = j := by
  have hInv := Inv_reachable n s hr
  have hib : i < n := by
    by_contra hge
    rw [nd_out_of_range s i (by rw [hInv.len]; omega)] at hi
    exact absurd hi (by decide)
  have hjb : j < n := by
    by_contra hge
    rw [nd_out_of_range s j (by rw [hInv.len]; omega)] at hj
    exact absurd hj (by decide)
  by_contra hne
  have hact_i : activeAt s i := by
    unfold activeAt
    rw [hi]
    simp
  have hact_j : activeAt s j := by
    unfold activeAt
    rw [hj]
    simp
  have hpi : j ∉ (nd s i).pendingReplies := by
    rw [hInv.pempty i hib (by rw [hi]; simp)]
    exact Finset.not_mem_empty j
  have hpj : i ∉ (nd s j).pendingReplies := by
    rw [hInv.pempty j hjb (by rw [hj]; simp)]
    exact Finset.not_mem_empty i
  have h1 := hInv.prio i j hib hjb hne hact_i hact_j hpi
  have h2 := hInv.prio j i hjb hib (fun h => hne h.symm) hact_j hact_i hpj
  exact tlt_asymm _ _ _ _ h1 h2

/-- Witness for C1 at a concrete input: after the two-node handshake
(request by node 0, delivery of its REQUEST, delivery of node 1's REPLY)
node 0 is HELD in the reachable state `demoState3`, and the theorem
instantiated at i = j = 0 applies. -/
theorem c1_witness : (0 : Nat) = 0 :=
  c1_mutual_exclusion 2 demoState3 0 0
    (Reachable.step demoState2 demoState3
      (Reachable.step demoState1 demoState2
        (Reachable.step demoState0 demoState1
          (Reachable.init { nodes := [], messages := [], logicalClock := 0 })
          (Step.request demoState0 0))
        (Step.deliver demoState1 0))
      (Step.deliver demoState2 1))
    (by decide) (by decide)

end RicartAgrawala
